import Mathlib

/-!
# AVR32 UC3 flash programming core (src/target/avr32_flash.c)

A shallow embedding of the flash routines of the OpenOCD AT32UC3 target:
status polling, page-buffer clearing, flash-size decoding, region unlocking,
user-page programming and the page program loop.

Conventions of the embedding.

* Machine words are natural numbers; every C operation on `uint32_t` that can
  wrap is written with an explicit `% 4294967296`.
* The debug link is an explicit state: every register access and every block
  transfer is appended to `State.trace`, in program order.
* What the hardware answers is read from an `Env` of oracles, so a theorem
  quantified over `Env` covers every behaviour of the device.
* `BYTES_PER_PAGE` is the textual macro `WORDS_PER_PAGE*4` (no parentheses) and
  `mDeviceSize` is the textual macro `512*1024`.  Each use below is the C
  expression after macro expansion, with C operator precedence:
  `x / BYTES_PER_PAGE` is `x / 128 * 4`, `x % BYTES_PER_PAGE` is `x % 128 * 4`.
* The status poll may spin for ever (a stuck clock and a silent status
  register), so `waitFlashReady` takes a bound `pf` on the iterations of its
  loop and answers `none` when the bound is hit.
* `programSequence` keeps its page in the local array
  `uint32_t bufferPacket[WORDS_PER_PAGE]`.  A store or a block read that leaves
  the array is undefined in C and may overwrite the variables of the loop, so
  the model follows a run only up to the first such access and ends it there
  with the mark `RetCode.UNDEFINED_BEHAVIOUR`; the state beside the mark holds
  the transactions issued until then.
-/

namespace Avr32Flash

/-! ## Constants of avr32_flash.h -/

abbrev HFLASH : Nat := 0xFFFE0000
abbrev FCMD : Nat := HFLASH + 0x4
abbrev FSR : Nat := HFLASH + 0x8
abbrev PR : Nat := HFLASH + 0xC

abbrev FSR_FRDY_MASK : Nat := 0x00000001
abbrev FSR_FRDY_OFFSET : Nat := 0
abbrev FSR_PROGE_MASK : Nat := 0x00000008
abbrev FSR_PROGE_OFFSET : Nat := 3
abbrev FSR_LOCKE_MASK : Nat := 0x00000004
abbrev FSR_LOCKE_OFFSET : Nat := 2
abbrev PR_FSZ_MASK : Nat := 0x0000001F
abbrev PR_FSZ_OFFSET : Nat := 0
abbrev FCMD_FCMD_MASK : Nat := 0x0000001F
abbrev FCMD_PAGEN_MASK : Nat := 0x00FFFF00
abbrev FCMD_PAGEN_OFFSET : Nat := 8
abbrev FCMD_KEY_MASK : Nat := 0xFF000000
abbrev WORDS_PER_PAGE : Nat := 128
abbrev USER_PAGE_OFFSET : Nat := 0x00800000
abbrev WRITE_PROTECT_KEY : Nat := 0xA5000000
abbrev CMD_WRITE_PAGE : Nat := 1
abbrev CMD_CLEAR_PAGE_BUFFER : Nat := 3
abbrev CMD_UNLOCK_REGION : Nat := 5
abbrev CMD_ERASE_ALL : Nat := 6
abbrev CMD_WRITE_USER_PAGE : Nat := 13
abbrev mBaseAddress : Nat := 0x80000000

/-- The value of the macro mDeviceSize (512*1024); every use in the source is an
operand of a comparison or a whole argument, where the missing parentheses do
not change the value. -/
abbrev mDeviceSize : Nat := 512 * 1024

/-! ## Data model -/

/-- Return codes used by the flash routines (their numeric values live in headers
outside the three source files; only their identity matters).
UNDEFINED_BEHAVIOUR is not a return code: it marks a run of programSequence that
has reached an access outside its local array bufferPacket[WORDS_PER_PAGE]. C
defines no behaviour from that access on, so the run of the model ends there,
and the state beside the mark is the state at that access. -/
inductive RetCode where
  | ERROR_OK
  | ERROR_FAIL
  | ERROR_TIMEOUT_REACHED
  | ERROR_JTAG_DEVICE_ERROR
  | ERROR_COMMAND_SYNTAX_ERROR
  | UNDEFINED_BEHAVIOUR
  deriving DecidableEq, Repr

/-- One transaction on the debug link. -/
inductive Event where
  | regRead (addr value : Nat)
  | regWrite (addr value : Nat)
  | blockRead (addr width count : Nat)
  | blockWrite (addr width count : Nat) (buf : List Nat)
  deriving DecidableEq, Repr

/-- The answers of the device and of the host clock.
* reg a n: the word returned by a read of register a when n register reads precede it;
* clock n: the value of the n-th call of timeval_ms;
* mem32 a: the flash word at byte address a; mem8 a: the flash byte at address a
  (each flash location that ends up in a page buffer is read before the page
  holding it is committed, so the content does not depend on time);
* writeOk n: whether the n-th 32-bit block write succeeds;
* junk i: the indeterminate initial content of byte i of an uninitialised local array. -/
structure Env where
  reg : Nat → Nat → Nat
  clock : Nat → Int
  mem32 : Nat → Nat
  mem8 : Nat → Nat
  writeOk : Nat → Bool
  junk : Nat → Nat

/-- The state threaded through the routines: the transactions issued so far (oldest
first), the counters that index the oracles, and a ghost log of the indices at
which programSequence stored payload words into its local page buffer, up to
and including the first index outside the buffer, if there is one. -/
structure State where
  trace : List Event
  regReads : Nat
  ticks : Nat
  writes32 : Nat
  stores : List Nat
  deriving DecidableEq, Repr

/-- The state before anything has happened. -/
def State.init : State := ⟨[], 0, 0, 0, []⟩

/-! ## Transport primitives -/

/-- The host clock timeval_ms. -/
def timeval_ms (env : Env) (s : State) : State × Int :=
  ({ s with ticks := s.ticks + 1 }, env.clock s.ticks)

/-- Source: getRegister, one word read over the debug link. -/
def getRegister (env : Env) (s : State) (addr : Nat) : State × Nat :=
  ({ s with trace := s.trace ++ [Event.regRead addr (env.reg addr s.regReads)],
            regReads := s.regReads + 1 },
   env.reg addr s.regReads)

/-- Source: writeCommand, one word write to FCMD (its return value is ignored by every caller). -/
def writeCommand (s : State) (command : Nat) : State :=
  { s with trace := s.trace ++ [Event.regWrite FCMD command] }

/-- Modelled from the spec: avr32_jtag_read_memory32 is not among the source files;
by section 4.1 it is a pass-through block read of count 32-bit units from addr
into the caller's array. The transfer is issued on the link in every case. When
count is at most the length of the array, its first count words are replaced by
flash content; when count exceeds the length, the transfer runs past the end of
the array, which C leaves undefined, and there is no resulting array (none). -/
def avr32_jtag_read_memory32 (env : Env) (s : State) (addr count : Nat)
    (buffer : List Nat) : State × Option (List Nat) :=
  ({ s with trace := s.trace ++ [Event.blockRead addr 4 count] },
   if count ≤ buffer.length then
     some ((List.range buffer.length).map
       (fun i => if i < count then env.mem32 ((addr + 4 * i) % 4294967296)
         else buffer.getD i 0))
   else none)

/-- Modelled from the spec: avr32_jtag_write_memory32 is not among the source files;
by section 4.1 it is a pass-through block write of count 32-bit units to addr,
whose status is the transport's. -/
def avr32_jtag_write_memory32 (env : Env) (s : State) (addr count : Nat)
    (buffer : List Nat) : State × RetCode :=
  ({ s with trace := s.trace ++ [Event.blockWrite addr 4 count (buffer.take count)],
            writes32 := s.writes32 + 1 },
   if env.writeOk s.writes32 then RetCode.ERROR_OK else RetCode.ERROR_FAIL)

/-- Modelled from the spec: avr32_jtag_read_memory8 is not among the source files;
a pass-through block read of count bytes from addr. -/
def avr32_jtag_read_memory8 (env : Env) (s : State) (addr count : Nat)
    (buffer : List Nat) : State × List Nat :=
  ({ s with trace := s.trace ++ [Event.blockRead addr 1 count] },
   (List.range buffer.length).map
     (fun i => if i < count then env.mem8 ((addr + i) % 4294967296) else buffer.getD i 0))

/-- Modelled from the spec: avr32_jtag_write_memory8 is not among the source files;
a pass-through block write of count bytes to addr (its status is ignored by the caller). -/
def avr32_jtag_write_memory8 (s : State) (addr count : Nat) (buffer : List Nat) : State :=
  { s with trace := s.trace ++ [Event.blockWrite addr 1 count (buffer.take count)] }

/-! ## Flash status poller -/

/-- The while loop of waitFlashReady; pf bounds the number of passes through the body. -/
def waitLoop (env : Env) : Nat → State → Int → Int → Option (State × RetCode)
  | 0, s, start, endT =>
    if endT - start < 1000 then none else some (s, RetCode.ERROR_TIMEOUT_REACHED)
  | pf + 1, s, start, endT =>
    if endT - start < 1000 then
      let r := getRegister env s FSR
      if (r.2 &&& FSR_LOCKE_MASK) >>> FSR_LOCKE_OFFSET ≠ 0 then
        some (r.1, RetCode.ERROR_JTAG_DEVICE_ERROR)
      else if (r.2 &&& FSR_PROGE_MASK) >>> FSR_PROGE_OFFSET ≠ 0 then
        some (r.1, RetCode.ERROR_COMMAND_SYNTAX_ERROR)
      else if (r.2 &&& FSR_FRDY_MASK) >>> FSR_FRDY_OFFSET ≠ 0 then
        some (r.1, RetCode.ERROR_OK)
      else
        let t := timeval_ms env r.1
        waitLoop env pf t.1 start t.2
    else some (s, RetCode.ERROR_TIMEOUT_REACHED)

/-- Source: waitFlashReady. The clock is read twice before the loop, first into
`end`, then into `start`. -/
def waitFlashReady (env : Env) (pf : Nat) (s : State) : Option (State × RetCode) :=
  let e := timeval_ms env s
  let b := timeval_ms env e.1
  waitLoop env pf b.1 b.2 e.2

/-! ## Page buffer controller, erase -/

/-- Source: clearPageBuffer. The results of both polls and of the command write are discarded. -/
def clearPageBuffer (env : Env) (pf : Nat) (s : State) : Option (State × RetCode) := do
  let command := WRITE_PROTECT_KEY ||| CMD_CLEAR_PAGE_BUFFER
  let w1 ← waitFlashReady env pf s
  let s2 := writeCommand w1.1 command
  let w2 ← waitFlashReady env pf s2
  pure (w2.1, RetCode.ERROR_OK)

/-- Source: eraseSequence. -/
def eraseSequence (env : Env) (pf : Nat) (s : State) : Option (State × RetCode) := do
  let w1 ← waitFlashReady env pf s
  let command := WRITE_PROTECT_KEY ||| CMD_ERASE_ALL
  let s2 := writeCommand w1.1 command
  let w2 ← waitFlashReady env pf s2
  pure (w2.1, RetCode.ERROR_OK)

/-! ## Flash geometry -/

/-- The switch of getInternalFlashSize on the size class pr. -/
def flashSizeOfClass (pr : Nat) : Nat :=
  match pr with
  | 0 => 4 * 1024
  | 1 => 8 * 1024
  | 2 => 16 * 1024
  | 3 => 32 * 1024
  | 4 => 48 * 1024
  | 5 => 64 * 1024
  | 6 => 96 * 1024
  | 7 => 128 * 1024
  | 8 => 192 * 1024
  | 9 => 256 * 1024
  | 10 => 384 * 1024
  | 11 => 512 * 1024
  | 12 => 768 * 1024
  | 13 => 1024 * 1024
  | 14 => 2024 * 1024
  | _ => 0

/-- Source: getInternalFlashSize. -/
def getInternalFlashSize (env : Env) (s : State) : State × Nat :=
  let r := getRegister env s PR
  let pr := (r.2 &&& PR_FSZ_MASK) >>> PR_FSZ_OFFSET
  (r.1, flashSizeOfClass pr)

/-! ## Region unlock -/

/-- The while loop of unlockRegion. The C variables pagenr and lastpagetounlock are
`int`; behind the bounds check of unlockRegion every value they take is below
2^31, so the conversions from `uint32_t` keep the value. The first argument
bounds the number of passes. -/
def unlockLoop (env : Env) (pf : Nat) (lastpagetounlock : Nat) :
    Nat → State → Nat → Nat → Option (State × RetCode)
  | 0, s, _, pagenr =>
    if pagenr ≤ lastpagetounlock then none else some (s, RetCode.ERROR_OK)
  | fuel + 1, s, page, pagenr =>
    if pagenr ≤ lastpagetounlock then do
      let command := (WRITE_PROTECT_KEY ||| CMD_UNLOCK_REGION) |||
        (((pagenr <<< FCMD_PAGEN_OFFSET) % 4294967296) &&& FCMD_PAGEN_MASK)
      let w1 ← waitFlashReady env pf s
      let s2 := writeCommand w1.1 command
      let w2 ← waitFlashReady env pf s2
      let page1 := (page + WORDS_PER_PAGE * 4) % 4294967296
      let offset1 := page1
      unlockLoop env pf lastpagetounlock fuel w2.1 page1 (offset1 / WORDS_PER_PAGE * 4 % 4294967296)
    else some (s, RetCode.ERROR_OK)

/-- Source: unlockRegion. The loop is given lastpagetounlock + 1 - pagenr passes,
which is never exhausted because pagenr grows on every pass. -/
def unlockRegion (env : Env) (pf : Nat) (s : State) (offset size : Nat) :
    Option (State × RetCode) :=
  if USER_PAGE_OFFSET ≤ offset ∧ offset < USER_PAGE_OFFSET + WORDS_PER_PAGE * 4 then
    some (s, RetCode.ERROR_OK)
  else if mDeviceSize ≤ offset ∨ mDeviceSize < (offset + size) % 4294967296 then
    some (s, RetCode.ERROR_FAIL)
  else
    let lastpagetounlock := (offset + size) % 4294967296 / WORDS_PER_PAGE * 4 % 4294967296
    let page := offset &&& 0xFFFFFE00
    let pagenr := offset / WORDS_PER_PAGE * 4 % 4294967296
    unlockLoop env pf lastpagetounlock (lastpagetounlock + 1 - pagenr) s page pagenr

/-- Source: unlockEntireFlash. -/
def unlockEntireFlash (env : Env) (pf : Nat) (s : State) : Option (State × RetCode) :=
  unlockRegion env pf s 0 mDeviceSize

/-! ## User-page programmer -/

/-- Source: programUserPage. dataBuffer is a `uint32_t*`: element i is the i-th
word of the caller's buffer, and the store into the `uint8_t` packet keeps its
low byte. bytesLeftInPacket is an `int`: a dataSize of 2^31 or more converts to
a negative count and the fill loop does not run. -/
def programUserPage (env : Env) (pf : Nat) (s : State) (offset : Nat)
    (dataBuffer : Nat → Nat) (dataSize : Nat) : Option (State × RetCode) :=
  if WORDS_PER_PAGE * 4 ≤ offset ∨ WORDS_PER_PAGE * 4 < (offset + dataSize) % 4294967296 then
    some (s, RetCode.ERROR_FAIL)
  else do
    let bufferPacket0 := (List.range (WORDS_PER_PAGE * 4)).map env.junk
    let r :=
      if 0 < offset ∨ dataSize < WORDS_PER_PAGE * 4 then
        avr32_jtag_read_memory8 env s ((mBaseAddress + USER_PAGE_OFFSET) % 4294967296)
          (WORDS_PER_PAGE * 4) bufferPacket0
      else (s, bufferPacket0)
    let c ← clearPageBuffer env pf r.1
    let bytesLeftInPacket := if dataSize < 2147483648 then dataSize else 0
    let bufferPacket := (List.range bytesLeftInPacket).foldl
      (fun b i => b.set (offset + i) (dataBuffer i % 256)) r.2
    let s4 := avr32_jtag_write_memory8 c.1 ((mBaseAddress + USER_PAGE_OFFSET) % 4294967296)
      (WORDS_PER_PAGE * 4) bufferPacket
    let command := WRITE_PROTECT_KEY ||| CMD_WRITE_USER_PAGE
    let w1 ← waitFlashReady env pf s4
    let s5 := writeCommand w1.1 command
    let w2 ← waitFlashReady env pf s5
    pure (w2.1, RetCode.ERROR_OK)

/-! ## Page program engine -/

/-- The chunk size of one pass of the program loop: MIN(page + BYTES_PER_PAGE - offset, bytesLeft). -/
def chunkSize (offset page bytesLeft : Nat) : Nat :=
  min ((page + WORDS_PER_PAGE * 4 + 4294967296 - offset) % 4294967296) bytesLeft

/-- The for loop of programSequence,
`for (int i = 0; i < bytesLeftInPacket/4; ++i) bufferPacket[bufferOffset++] = dataBuffer[i];`
with n the passes still to run. Every store is recorded in the ghost log. A store
at an index outside the array is undefined in C: the loop stops there and there
is no resulting array (none). -/
def fillPacket (dataBuffer : Nat → Nat) :
    Nat → Nat → Nat → State → List Nat → State × Option (List Nat)
  | 0, _, _, s, bufferPacket => (s, some bufferPacket)
  | n + 1, i, bufferOffset, s, bufferPacket =>
    let s1 := { s with stores := s.stores ++ [bufferOffset] }
    if bufferOffset < bufferPacket.length then
      fillPacket dataBuffer n (i + 1) (bufferOffset + 1) s1
        (bufferPacket.set bufferOffset (dataBuffer i))
    else (s1, none)

/-- The part of the body of the while loop of programSequence between the
page-buffer clear and the test of the block write's status: memset of the local
array, chunk size and buffer offset, the optional preserve-read of dataSize
units, the fill loop, and the block write of WORDS_PER_PAGE words. The result is
the status of the block write, or UNDEFINED_BEHAVIOUR when the preserve-read or a
store of the fill loop leaves the array; nothing after that access is modelled. -/
def stagePage (env : Env) (dataBuffer : Nat → Nat) (dataSize : Nat) (s : State)
    (offset page bytesLeft : Nat) : State × RetCode :=
  let bufferPacket0 := List.replicate WORDS_PER_PAGE 0xFFFFFFFF
  let bytesLeftInPacket := chunkSize offset page bytesLeft
  let bufferOffset := offset % WORDS_PER_PAGE * 4 % 4294967296
  let r :=
    if bufferOffset ≠ 0 ∨ bytesLeftInPacket ≠ WORDS_PER_PAGE * 4 then
      avr32_jtag_read_memory32 env s ((mBaseAddress + page) % 4294967296) dataSize
        bufferPacket0
    else (s, some bufferPacket0)
  match r.2 with
  | none => (r.1, RetCode.UNDEFINED_BEHAVIOUR)
  | some afterRead =>
    let f := fillPacket dataBuffer (bytesLeftInPacket / 4) 0 bufferOffset r.1 afterRead
    match f.2 with
    | none => (f.1, RetCode.UNDEFINED_BEHAVIOUR)
    | some bufferPacket =>
      avr32_jtag_write_memory32 env f.1 ((mBaseAddress + page) % 4294967296)
        WORDS_PER_PAGE bufferPacket

/-- The while loop of programSequence; stagePage is the middle of its body. The C
variables bytesLeftInPacket, bufferOffset and pagenr are `int`; whenever
page ≤ offset < page + 512, as on every pass started by programSequence, their
values are at most 512, at most 508 and below 2^27, so the conversions keep the
value. The first argument bounds the number of passes. A pass that leaves the
local array ends the run with the mark UNDEFINED_BEHAVIOUR. -/
def programLoop (env : Env) (pf : Nat) (dataBuffer : Nat → Nat) (dataSize : Nat) :
    Nat → State → Nat → Nat → Nat → Option (State × RetCode)
  | 0, s, _, _, bytesLeft =>
    if 0 < bytesLeft then none else some (s, RetCode.ERROR_OK)
  | fuel + 1, s, offset, page, bytesLeft =>
    if 0 < bytesLeft then do
      let c ← clearPageBuffer env pf s
      let bytesLeftInPacket := chunkSize offset page bytesLeft
      let w := stagePage env dataBuffer dataSize c.1 offset page bytesLeft
      if w.2 = RetCode.UNDEFINED_BEHAVIOUR then
        some (w.1, RetCode.UNDEFINED_BEHAVIOUR)
      else if w.2 ≠ RetCode.ERROR_OK then
        some (w.1, RetCode.ERROR_FAIL)
      else do
        let pagenr := offset / WORDS_PER_PAGE * 4 % 4294967296
        let command := (WRITE_PROTECT_KEY ||| CMD_WRITE_PAGE) |||
          ((pagenr <<< FCMD_PAGEN_OFFSET) % 4294967296)
        let w1 ← waitFlashReady env pf w.1
        let s2 := writeCommand w1.1 command
        let w2 ← waitFlashReady env pf s2
        let page1 := (page + WORDS_PER_PAGE * 4) % 4294967296
        programLoop env pf dataBuffer dataSize fuel w2.1 page1 page1 (bytesLeft - bytesLeftInPacket)
    else some (s, RetCode.ERROR_OK)

/-- Source: programSequence. The user-page branch discards the result of
programUserPage and falls through to the bounds check of the main array. The
loop is given dataSize passes, which is never exhausted because every pass
consumes at least one byte. -/
def programSequence (env : Env) (pf : Nat) (s : State) (offset : Nat)
    (dataBuffer : Nat → Nat) (dataSize : Nat) : Option (State × RetCode) := do
  let u ←
    if USER_PAGE_OFFSET ≤ offset ∧ offset < USER_PAGE_OFFSET + WORDS_PER_PAGE * 4 then
      programUserPage env pf s (offset - USER_PAGE_OFFSET) dataBuffer dataSize
    else some (s, RetCode.ERROR_OK)
  if mDeviceSize ≤ offset ∨ mDeviceSize < (offset + dataSize) % 4294967296 then
    some (u.1, RetCode.ERROR_FAIL)
  else
    let page := offset &&& 0xFFFFFE00
    programLoop env pf dataBuffer dataSize dataSize u.1 offset page dataSize


/-! ## Observations on traces, and device behaviours -/

/-- Whether a transaction is a read of the status register FSR. -/
def isStatusRead : Event → Bool
  | Event.regRead a _ => decide (a = FSR)
  | _ => false

/-- The trace without the status reads of the polls. -/
def strip (t : List Event) : List Event := t.filter (fun e => !isStatusRead e)

/-- The words written to the command register FCMD, oldest first. -/
def commandWords (t : List Event) : List Nat :=
  t.filterMap (fun e => match e with
    | Event.regWrite a v => if a = FCMD then some v else none
    | _ => none)

/-- A command word whose opcode field (bits 4..0) is CMD_WRITE_PAGE. -/
def isWritePage (c : Nat) : Bool := decide (c &&& FCMD_FCMD_MASK = CMD_WRITE_PAGE)

/-- The WRITE_PAGE commands of a trace. -/
def writePageCommands (t : List Event) : List Nat := (commandWords t).filter isWritePage

/-- The block writes of a trace: address, unit count and content. -/
def blockWritesOf (t : List Event) : List (Nat × Nat × List Nat) :=
  t.filterMap (fun e => match e with
    | Event.blockWrite a _ c buf => some (a, c, buf)
    | _ => none)

/-- The block reads of a trace: address and unit count. -/
def blockReadsOf (t : List Event) : List (Nat × Nat) :=
  t.filterMap (fun e => match e with
    | Event.blockRead a _ c => some (a, c)
    | _ => none)

/-- Every poll started with bound pf comes back (with whatever result). -/
def PollsReturn (env : Env) (pf : Nat) : Prop :=
  ∀ s : State, (waitFlashReady env pf s).isSome = true

/-- A device that is ready at every status read, whose block writes succeed, with
flash words mem and a clock standing at 0. -/
def readyEnv (mem : Nat → Nat) : Env :=
  ⟨fun _ _ => 1, fun _ => 0, mem, fun _ => 0, fun _ => true, fun _ => 0⟩

/-- The command word of one pass of the program loop, whose start offset is offset:
pagenr is offset / BYTES_PER_PAGE after macro expansion, that is offset / 128 * 4. -/
def writePageCommand (offset : Nat) : Nat :=
  (WRITE_PROTECT_KEY ||| CMD_WRITE_PAGE) |||
    (((offset / WORDS_PER_PAGE * 4 % 4294967296) <<< FCMD_PAGEN_OFFSET) % 4294967296)

/-- The host clock never runs backwards. -/
def MonotonicClock (env : Env) : Prop := ∀ n : Nat, env.clock n ≤ env.clock (n + 1)

/-- A device whose status register always reads status and whose host clock
advances step milliseconds per call; flash content 0, block writes succeed. -/
def steadyEnv (status : Nat) (step : Int) : Env :=
  ⟨fun _ _ => status, fun n => step * n, fun _ => 0, fun _ => 0, fun _ => true, fun _ => 0⟩

/-- The status reads of n consecutive unsuccessful passes of the poll loop, the
first of which is the register read number r. -/
def spinReads (env : Env) : Nat → Nat → List Event
  | _, 0 => []
  | r, n + 1 => Event.regRead FSR (env.reg FSR r) :: spinReads env (r + 1) n

/-- The command word of one pass of the unlock loop, for the loop variable pagenr. -/
def unlockCommand (pagenr : Nat) : Nat :=
  (WRITE_PROTECT_KEY ||| CMD_UNLOCK_REGION) |||
    (((pagenr <<< FCMD_PAGEN_OFFSET) % 4294967296) &&& FCMD_PAGEN_MASK)

/-- The transactions, status reads apart, of the unlock loop. -/
def unlockEvents (lastpagetounlock : Nat) : Nat → Nat → Nat → List Event
  | 0, _, _ => []
  | fuel + 1, page, pagenr =>
    if pagenr ≤ lastpagetounlock then
      Event.regWrite FCMD (unlockCommand pagenr) ::
        unlockEvents lastpagetounlock fuel ((page + WORDS_PER_PAGE * 4) % 4294967296)
          ((page + WORDS_PER_PAGE * 4) % 4294967296 / WORDS_PER_PAGE * 4 % 4294967296)
    else []

/-- The address of the user page on the debug link: mBaseAddress + USER_PAGE_OFFSET. -/
abbrev userPageAddress : Nat := (mBaseAddress + USER_PAGE_OFFSET) % 4294967296

/-- Whether programUserPage reads the user page before writing it. -/
def userPageIsPartial (offset dataSize : Nat) : Prop := 0 < offset ∨ dataSize < WORDS_PER_PAGE * 4

instance (offset dataSize : Nat) : Decidable (userPageIsPartial offset dataSize) :=
  inferInstanceAs (Decidable (0 < offset ∨ dataSize < WORDS_PER_PAGE * 4))

/-- The local packet of programUserPage before the fill loop: the user page as
read, or the uninitialised array when the read is skipped. -/
def userPacketRead (env : Env) (offset dataSize : Nat) : List Nat :=
  if userPageIsPartial offset dataSize then
    (List.range (WORDS_PER_PAGE * 4)).map (fun i => env.mem8 ((userPageAddress + i) % 4294967296))
  else (List.range (WORDS_PER_PAGE * 4)).map env.junk

/-- The packet that programUserPage hands to the block write. -/
def userPacket (env : Env) (offset : Nat) (dataBuffer : Nat → Nat) (dataSize : Nat) : List Nat :=
  (List.range (if dataSize < 2147483648 then dataSize else 0)).foldl
    (fun b i => b.set (offset + i) (dataBuffer i % 256)) (userPacketRead env offset dataSize)

/-- The transactions, status reads apart, of a programUserPage that passes its bounds check. -/
def userPageEvents (env : Env) (offset : Nat) (dataBuffer : Nat → Nat) (dataSize : Nat) :
    List Event :=
  (if userPageIsPartial offset dataSize then
    [Event.blockRead userPageAddress 1 (WORDS_PER_PAGE * 4)] else []) ++
  [Event.regWrite FCMD (WRITE_PROTECT_KEY ||| CMD_CLEAR_PAGE_BUFFER),
   Event.blockWrite userPageAddress 1 (WORDS_PER_PAGE * 4)
     ((userPacket env offset dataBuffer dataSize).take (WORDS_PER_PAGE * 4)),
   Event.regWrite FCMD (WRITE_PROTECT_KEY ||| CMD_WRITE_USER_PAGE)]

/-- A device that is always ready, with flash content 0, whose 32-bit block write
number bad (counted from 0) fails and whose other block writes succeed. -/
def failingWriteEnv (bad : Nat) : Env :=
  ⟨fun _ _ => 1, fun _ => 0, fun _ => 0, fun _ => 0, fun n => decide (n ≠ bad), fun _ => 0⟩

/-- Byte i of a buffer of 32-bit words laid out least significant byte first. -/
def wordBytesLE (w : Nat → Nat) (i : Nat) : Nat := (w (i / 4) >>> (8 * (i % 4))) % 256

/-- Byte i of a buffer of 32-bit words laid out most significant byte first. -/
def wordBytesBE (w : Nat → Nat) (i : Nat) : Nat := (w (i / 4) >>> (8 * (3 - i % 4))) % 256

/-- A payload of two words, 0x11111111 and 0x22222222, in a buffer otherwise 0. -/
def twoWordPayload (i : Nat) : Nat :=
  if i = 0 then 0x11111111 else if i = 1 then 0x22222222 else 0

/-- The values the loop variable pagenr takes on the passes of the unlock loop. -/
def unlockPagenrs (lastpagetounlock : Nat) : Nat → Nat → Nat → List Nat
  | 0, _, _ => []
  | fuel + 1, page, pagenr =>
    if pagenr ≤ lastpagetounlock then
      pagenr ::
        unlockPagenrs lastpagetounlock fuel ((page + WORDS_PER_PAGE * 4) % 4294967296)
          ((page + WORDS_PER_PAGE * 4) % 4294967296 / WORDS_PER_PAGE * 4 % 4294967296)
    else []

/-- The page-number field (bits 23..8) of a command word. -/
def pageField (c : Nat) : Nat := (c &&& FCMD_PAGEN_MASK) >>> FCMD_PAGEN_OFFSET

/-- The opcode field (bits 4..0) of a command word. -/
def opcodeField (c : Nat) : Nat := c &&& FCMD_FCMD_MASK

/-- The key field (bits 31..24) of a command word. -/
def keyField (c : Nat) : Nat := (c &&& FCMD_KEY_MASK) >>> 24

/-- A payload of one full user page, the 128 words 0x44332211, in a buffer
otherwise 0. -/
def fullPagePayload (i : Nat) : Nat := if i < 128 then 0x44332211 else 0

/-! ## Frame lemmas: what a poll and a bracketed command leave behind -/

theorem strip_append (t u : List Event) : strip (t ++ u) = strip t ++ strip u := by
  simp [strip]

theorem strip_statusRead (v : Nat) : strip [Event.regRead FSR v] = [] := by
  simp [strip, isStatusRead]

theorem filterMap_strip {α : Type} (f : Event → Option α)
    (hf : ∀ v, f (Event.regRead FSR v) = none) (t : List Event) :
    (strip t).filterMap f = t.filterMap f := by
  induction t with
  | nil => rfl
  | cons e t ih =>
    have ih2 : (List.filter (fun e => !isStatusRead e) t).filterMap f = t.filterMap f := ih
    by_cases h : isStatusRead e = true
    · have hfe : f e = none := by
        cases e with
        | regRead a v =>
          have : a = FSR := by simpa [isStatusRead] using h
          subst this
          exact hf v
        | regWrite a v => simp [isStatusRead] at h
        | blockRead a w c => simp [isStatusRead] at h
        | blockWrite a w c b => simp [isStatusRead] at h
      simp [strip, List.filter_cons, h, List.filterMap_cons, hfe, ih2]
    · simp [strip, List.filter_cons, h, List.filterMap_cons, ih2]

theorem commandWords_strip (t : List Event) : commandWords (strip t) = commandWords t :=
  filterMap_strip _ (fun _ => rfl) t

theorem blockWritesOf_strip (t : List Event) : blockWritesOf (strip t) = blockWritesOf t :=
  filterMap_strip _ (fun _ => rfl) t

theorem blockReadsOf_strip (t : List Event) : blockReadsOf (strip t) = blockReadsOf t :=
  filterMap_strip _ (fun _ => rfl) t

/-- A poll only appends status reads: the stripped trace, the write counter and the
store log are unchanged. -/
theorem waitLoop_frame (env : Env) (pf : Nat) :
    ∀ (s : State) (start endT : Int) (x : State × RetCode),
      waitLoop env pf s start endT = some x →
      strip x.1.trace = strip s.trace ∧ x.1.writes32 = s.writes32 ∧ x.1.stores = s.stores := by
  induction pf with
  | zero =>
    intro s start endT x h
    unfold waitLoop at h
    split at h
    · cases h
    · cases h; exact ⟨rfl, rfl, rfl⟩
  | succ n ih =>
    intro s start endT x h
    unfold waitLoop at h
    have hr : strip (getRegister env s FSR).1.trace = strip s.trace := by
      simp [getRegister, strip_append, strip_statusRead]
    split at h
    · simp only at h
      split at h
      · cases h; exact ⟨hr, rfl, rfl⟩
      · split at h
        · cases h; exact ⟨hr, rfl, rfl⟩
        · split at h
          · cases h; exact ⟨hr, rfl, rfl⟩
          · have := ih _ _ _ _ h
            simpa [timeval_ms, getRegister, strip_append, strip_statusRead] using this
    · cases h; exact ⟨rfl, rfl, rfl⟩

theorem waitFlashReady_frame (env : Env) (pf : Nat) (s : State) (x : State × RetCode)
    (h : waitFlashReady env pf s = some x) :
    strip x.1.trace = strip s.trace ∧ x.1.writes32 = s.writes32 ∧ x.1.stores = s.stores := by
  have := waitLoop_frame env pf _ _ _ _ h
  simpa [timeval_ms] using this

/-- A command bracketed by two polls: both polls return and exactly the command
is added to the stripped trace. -/
theorem bracket_exec (env : Env) (pf : Nat) (hp : PollsReturn env pf) (s : State)
    (command : Nat) :
    ∃ a b : State × RetCode,
      waitFlashReady env pf s = some a ∧
      waitFlashReady env pf (writeCommand a.1 command) = some b ∧
      strip b.1.trace = strip s.trace ++ [Event.regWrite FCMD command] ∧
      b.1.writes32 = s.writes32 ∧ b.1.stores = s.stores := by
  obtain ⟨a, ha⟩ := Option.isSome_iff_exists.mp (hp s)
  obtain ⟨b, hb⟩ := Option.isSome_iff_exists.mp (hp (writeCommand a.1 command))
  obtain ⟨fa1, fa2, fa3⟩ := waitFlashReady_frame env pf s a ha
  obtain ⟨fb1, fb2, fb3⟩ := waitFlashReady_frame env pf _ b hb
  refine ⟨a, b, ha, hb, ?_, ?_, ?_⟩
  · rw [fb1]
    have : strip [Event.regWrite FCMD command] = [Event.regWrite FCMD command] := by
      simp [strip, isStatusRead]
    simp only [writeCommand, strip_append, fa1, this]
  · rw [fb2]; simpa [writeCommand] using fa2
  · rw [fb3]; simpa [writeCommand] using fa3

theorem clearPageBuffer_exec (env : Env) (pf : Nat) (hp : PollsReturn env pf) (s : State) :
    ∃ s1 : State, clearPageBuffer env pf s = some (s1, RetCode.ERROR_OK) ∧
      strip s1.trace = strip s.trace ++
        [Event.regWrite FCMD (WRITE_PROTECT_KEY ||| CMD_CLEAR_PAGE_BUFFER)] ∧
      s1.writes32 = s.writes32 ∧ s1.stores = s.stores := by
  obtain ⟨a, b, ha, hb, h1, h2, h3⟩ :=
    bracket_exec env pf hp s (WRITE_PROTECT_KEY ||| CMD_CLEAR_PAGE_BUFFER)
  refine ⟨b.1, ?_, h1, h2, h3⟩
  simp [clearPageBuffer, ha, hb]

theorem readyEnv_wait (mem : Nat → Nat) (s : State) :
    waitFlashReady (readyEnv mem) 1 s =
      some ({ s with trace := s.trace ++ [Event.regRead FSR 1],
                     regReads := s.regReads + 1, ticks := s.ticks + 2 }, RetCode.ERROR_OK) := by
  have h1 : ((1 : Nat) &&& FSR_LOCKE_MASK) >>> FSR_LOCKE_OFFSET = 0 := by decide
  have h2 : ((1 : Nat) &&& FSR_PROGE_MASK) >>> FSR_PROGE_OFFSET = 0 := by decide
  have h3 : ((1 : Nat) &&& FSR_FRDY_MASK) >>> FSR_FRDY_OFFSET ≠ 0 := by decide
  simp only [waitFlashReady, waitLoop, timeval_ms, getRegister, readyEnv, h1, h2, h3]
  simp

theorem readyEnv_pollsReturn (mem : Nat → Nat) : PollsReturn (readyEnv mem) 1 := by
  intro s
  rw [readyEnv_wait]
  rfl


/-! ## The program loop, pass by pass -/

theorem programLoop_succ (env : Env) (pf : Nat) (dataBuffer : Nat → Nat) (dataSize : Nat)
    (fuel : Nat) (s : State) (offset page bytesLeft : Nat) :
    programLoop env pf dataBuffer dataSize (fuel + 1) s offset page bytesLeft =
      if 0 < bytesLeft then
        (clearPageBuffer env pf s).bind (fun c =>
          if (stagePage env dataBuffer dataSize c.1 offset page bytesLeft).2 =
              RetCode.UNDEFINED_BEHAVIOUR then
            some ((stagePage env dataBuffer dataSize c.1 offset page bytesLeft).1,
              RetCode.UNDEFINED_BEHAVIOUR)
          else if (stagePage env dataBuffer dataSize c.1 offset page bytesLeft).2 ≠
              RetCode.ERROR_OK then
            some ((stagePage env dataBuffer dataSize c.1 offset page bytesLeft).1, RetCode.ERROR_FAIL)
          else
            (waitFlashReady env pf (stagePage env dataBuffer dataSize c.1 offset page bytesLeft).1).bind
              (fun w1 =>
                (waitFlashReady env pf (writeCommand w1.1 (writePageCommand offset))).bind
                  (fun w2 =>
                    programLoop env pf dataBuffer dataSize fuel w2.1
                      ((page + WORDS_PER_PAGE * 4) % 4294967296)
                      ((page + WORDS_PER_PAGE * 4) % 4294967296)
                      (bytesLeft - chunkSize offset page bytesLeft))))
      else some (s, RetCode.ERROR_OK) := by
  rfl

/-- The fill loop touches nothing but the ghost log of stores. -/
theorem fillPacket_frame (dataBuffer : Nat → Nat) :
    ∀ (n i bufferOffset : Nat) (s : State) (b : List Nat),
      (fillPacket dataBuffer n i bufferOffset s b).1.trace = s.trace ∧
      (fillPacket dataBuffer n i bufferOffset s b).1.writes32 = s.writes32 := by
  intro n
  induction n with
  | zero => intro i bo s b; exact ⟨rfl, rfl⟩
  | succ n ih =>
    intro i bo s b
    unfold fillPacket
    split
    · exact ih _ _ _ _
    · exact ⟨rfl, rfl⟩

/-- A transaction that is a block transfer: neither a register read nor a register write. -/
theorem blockEvent_spec (e : Event)
    (h : (∃ a w c, e = Event.blockRead a w c) ∨ (∃ a w c b, e = Event.blockWrite a w c b)) :
    isStatusRead e = false ∧ ∀ c, e ≠ Event.regWrite FCMD c := by
  rcases h with ⟨a, w, c, rfl⟩ | ⟨a, w, c, b, rfl⟩
  · exact ⟨rfl, fun _ h => by cases h⟩
  · exact ⟨rfl, fun _ h => by cases h⟩

/-- What the middle of a pass leaves behind, on every input: block transfers only,
and either the mark UNDEFINED_BEHAVIOUR with no block write issued, or one block
write whose status is the result. -/
theorem stagePage_frame (env : Env) (dataBuffer : Nat → Nat) (dataSize : Nat) (s : State)
    (offset page bytesLeft : Nat) :
    ∃ evs : List Event,
      (stagePage env dataBuffer dataSize s offset page bytesLeft).1.trace = s.trace ++ evs ∧
      (∀ e ∈ evs, isStatusRead e = false ∧ ∀ c, e ≠ Event.regWrite FCMD c) ∧
      (((stagePage env dataBuffer dataSize s offset page bytesLeft).2 =
            RetCode.UNDEFINED_BEHAVIOUR ∧
          (stagePage env dataBuffer dataSize s offset page bytesLeft).1.writes32 = s.writes32) ∨
        ((stagePage env dataBuffer dataSize s offset page bytesLeft).2 =
            (if env.writeOk s.writes32 then RetCode.ERROR_OK else RetCode.ERROR_FAIL) ∧
          (stagePage env dataBuffer dataSize s offset page bytesLeft).1.writes32 =
            s.writes32 + 1)) := by
  have hr : ∃ (r : State × Option (List Nat)) (e0 : List Event),
      (if offset % WORDS_PER_PAGE * 4 % 4294967296 ≠ 0 ∨
          chunkSize offset page bytesLeft ≠ WORDS_PER_PAGE * 4 then
        avr32_jtag_read_memory32 env s ((mBaseAddress + page) % 4294967296) dataSize
          (List.replicate WORDS_PER_PAGE 0xFFFFFFFF)
      else (s, some (List.replicate WORDS_PER_PAGE 0xFFFFFFFF))) = r ∧
      r.1.trace = s.trace ++ e0 ∧ r.1.writes32 = s.writes32 ∧
      (∀ e ∈ e0, isStatusRead e = false ∧ ∀ c, e ≠ Event.regWrite FCMD c) := by
    split
    · refine ⟨_, [Event.blockRead ((mBaseAddress + page) % 4294967296) 4 dataSize], rfl, rfl,
        rfl, ?_⟩
      intro e he
      simp only [List.mem_singleton] at he
      exact blockEvent_spec e (Or.inl ⟨_, _, _, he⟩)
    · exact ⟨_, [], rfl, by simp, rfl, by simp⟩
  obtain ⟨r, e0, hr1, hr2, hr3, hr4⟩ := hr
  unfold stagePage
  simp only [hr1]
  cases h2 : r.2 with
  | none =>
    dsimp only
    exact ⟨e0, hr2, hr4, Or.inl ⟨rfl, hr3⟩⟩
  | some afterRead =>
    obtain ⟨f1, f2⟩ := fillPacket_frame dataBuffer (chunkSize offset page bytesLeft / 4) 0
      (offset % WORDS_PER_PAGE * 4 % 4294967296) r.1 afterRead
    cases h3 : (fillPacket dataBuffer (chunkSize offset page bytesLeft / 4) 0
        (offset % WORDS_PER_PAGE * 4 % 4294967296) r.1 afterRead).2 with
    | none =>
      simp only [h3]
      exact ⟨e0, by rw [f1, hr2], hr4, Or.inl ⟨trivial, by rw [f2, hr3]⟩⟩
    | some bufferPacket =>
      simp only [h3]
      refine ⟨e0 ++ [Event.blockWrite ((mBaseAddress + page) % 4294967296) 4 WORDS_PER_PAGE
        (bufferPacket.take WORDS_PER_PAGE)], ?_, ?_, Or.inr ⟨?_, ?_⟩⟩
      · simp only [avr32_jtag_write_memory32, f1, hr2, List.append_assoc]
      · intro e he
        simp only [List.mem_append, List.mem_singleton] at he
        rcases he with he | he
        · exact hr4 e he
        · exact blockEvent_spec e (Or.inr ⟨_, _, _, _, he⟩)
      · simp only [avr32_jtag_write_memory32, f2, hr3]
      · simp only [avr32_jtag_write_memory32, f2, hr3]

theorem strip_pageOps (l : List Event) (h : ∀ e ∈ l, isStatusRead e = false) : strip l = l := by
  unfold strip
  rw [List.filter_eq_self]
  intro e he
  simp [h e he]

theorem chunkSize_bounds (offset page bytesLeft : Nat) (h0 : 0 < bytesLeft) (h1 : page ≤ offset)
    (h2 : offset < page + 512) :
    0 < chunkSize offset page bytesLeft ∧ chunkSize offset page bytesLeft ≤ bytesLeft ∧
    chunkSize offset page bytesLeft = min (page + 512 - offset) bytesLeft := by
  unfold chunkSize
  simp only [WORDS_PER_PAGE]
  omega

/-! ## Arithmetic of the page mask and of the command word -/

theorem and_pageMask (x : Nat) (h : x < 4294967296) : x &&& 0xFFFFFE00 = x / 512 * 512 := by
  have e1 : (0xFFFFFE00 : Nat) = (2 ^ 23 - 1) <<< 9 := by decide
  have e2 : x / 512 * 512 = (x >>> 9) <<< 9 := by
    simp [Nat.shiftLeft_eq, Nat.shiftRight_eq_div_pow]
  rw [e1, e2]
  apply Nat.eq_of_testBit_eq
  intro i
  simp only [Nat.testBit_and, Nat.testBit_shiftLeft, Nat.testBit_shiftRight,
    Nat.testBit_two_pow_sub_one]
  by_cases h9 : 9 ≤ i
  · have e : 9 + (i - 9) = i := by omega
    by_cases h32 : i < 32
    · have : i - 9 < 23 := by omega
      simp [h9, e, this]
    · have hx : x.testBit i = false := by
        apply Nat.testBit_lt_two_pow
        calc x < 2 ^ 32 := h
          _ ≤ 2 ^ i := Nat.pow_le_pow_right (by decide) (by omega)
      simp [h9, e, hx]
  · simp [h9]

theorem isWritePage_writePageCommand (offset : Nat) :
    isWritePage (writePageCommand offset) = true := by
  unfold isWritePage writePageCommand
  have e : (FCMD_FCMD_MASK : Nat) = 2 ^ 5 - 1 := by decide
  rw [Nat.and_distrib_right, e, Nat.and_pow_two_sub_one_eq_mod, Nat.and_pow_two_sub_one_eq_mod,
    Nat.shiftLeft_eq]
  have h2 : (offset / WORDS_PER_PAGE * 4 % 4294967296 * 2 ^ FCMD_PAGEN_OFFSET) % 4294967296 % 2 ^ 5
      = 0 := by
    simp only [FCMD_PAGEN_OFFSET]
    omega
  rw [h2]
  decide


theorem blockWritesOf_append (t u : List Event) :
    blockWritesOf (t ++ u) = blockWritesOf t ++ blockWritesOf u := by
  simp [blockWritesOf]

theorem commandWords_append (t u : List Event) :
    commandWords (t ++ u) = commandWords t ++ commandWords u := by
  simp [commandWords]

/-! ## The entry of programSequence -/

theorem programSequence_main (env : Env) (pf : Nat) (s : State) (offset : Nat)
    (dataBuffer : Nat → Nat) (dataSize : Nat)
    (hu : ¬ (USER_PAGE_OFFSET ≤ offset ∧ offset < USER_PAGE_OFFSET + WORDS_PER_PAGE * 4)) :
    programSequence env pf s offset dataBuffer dataSize =
      if mDeviceSize ≤ offset ∨ mDeviceSize < (offset + dataSize) % 4294967296 then
        some (s, RetCode.ERROR_FAIL)
      else
        programLoop env pf dataBuffer dataSize dataSize s offset (offset &&& 0xFFFFFE00)
          dataSize := by
  simp only [programSequence, hu, if_false, Option.bind_eq_bind, Option.some_bind]

/-! ## Claims -/

set_option maxRecDepth 100000

/-- C5 (evaluation at the failing input): 100 bytes written at offset 32 meet one
page, so N = 1. The preserve-read of 100 words fits, but the first store of the
fill loop goes to index 32 % 128 * 4 = 128, outside the 128-word array, before
any block write or WRITE_PAGE command has been issued. From that store on the
run is undefined; it is not the one block write and one WRITE_PAGE of the claim. -/
theorem programSequence_overrun_before_write :
    0 < 100 ∧ 32 + 100 ≤ mDeviceSize ∧ (32 + 100 - 1) / 512 - 32 / 512 + 1 = 1 ∧
    (programSequence (readyEnv (fun _ => 0)) 1 State.init 32 (fun i => i) 100).map
        (fun r => (r.2, r.1.stores, blockReadsOf r.1.trace)) =
      some (RetCode.UNDEFINED_BEHAVIOUR, [128], [(mBaseAddress, 100)]) ∧
    (programSequence (readyEnv (fun _ => 0)) 1 State.init 32 (fun i => i) 100).map
        (fun r => (blockWritesOf r.1.trace, writePageCommands r.1.trace)) =
      some ([], []) ∧
    ¬ (128 < WORDS_PER_PAGE) := by
  decide



/-- C1 (evaluation at the failing input): a page-aligned write of two pages whose
payload word i is i. The second page, at base + 512, is block-written with the
payload words 0..127 again, not with the words 128..255 of the second page of
the payload: the loop indexes dataBuffer from 0 on every pass. -/
theorem programSequence_second_page_repeats_first :
    (programSequence (readyEnv (fun _ => 0)) 1 State.init 0 (fun i => i) 1024).map
        (fun r => (r.2, blockWritesOf r.1.trace)) =
      some (RetCode.ERROR_OK,
        [(mBaseAddress, 128, List.range 128), (mBaseAddress + 512, 128, List.range 128)]) ∧
    List.range 128 ≠ (List.range 128).map (fun i => 128 + i) := by
  decide

/-- C2 (evaluation at the failing input): 20 bytes of 0x11 written at offset 0 over
a flash whose words are all 0. One WRITE_PAGE command 0xA5000001 is issued, but
the preserve-read asks for dataSize = 20 words instead of a page, so the packet
is 5 payload words, 15 flash words and then 108 words of the 0xFF fill, where
the flash holds 0. -/
theorem programSequence_short_write_packet :
    (programSequence (readyEnv (fun _ => 0)) 1 State.init 0 (fun _ => 0x11111111) 20).map
        (fun r => (r.2, writePageCommands r.1.trace, blockReadsOf r.1.trace)) =
      some (RetCode.ERROR_OK, [0xA5000001], [(mBaseAddress, 20)]) ∧
    (programSequence (readyEnv (fun _ => 0)) 1 State.init 0 (fun _ => 0x11111111) 20).map
        (fun r => blockWritesOf r.1.trace) =
      some [(mBaseAddress, 128,
          List.replicate 5 0x11111111 ++ List.replicate 15 0 ++ List.replicate 108 0xFFFFFFFF)] ∧
    List.replicate 5 0x11111111 ++ List.replicate 15 0 ++ List.replicate 108 0xFFFFFFFF ≠
      List.replicate 5 0x11111111 ++ List.replicate 123 0 := by
  decide

/-- C3 (evaluation at the failing input): 4 bytes written at offset 4 over a flash
whose words are all 0. The payload word lands at word index 4 % 128 * 4 = 16
(bytes 64..67) instead of word 1, and only dataSize = 4 words are read back, so
words 4..127 of the packet, all outside bytes [4, 8), differ from the flash. -/
theorem programSequence_partial_page_packet :
    (programSequence (readyEnv (fun _ => 0)) 1 State.init 4 (fun _ => 0x11111111) 4).map
        (fun r => (r.2, blockReadsOf r.1.trace, r.1.stores)) =
      some (RetCode.ERROR_OK, [(mBaseAddress, 4)], [16]) ∧
    (programSequence (readyEnv (fun _ => 0)) 1 State.init 4 (fun _ => 0x11111111) 4).map
        (fun r => blockWritesOf r.1.trace) =
      some [(mBaseAddress, 128,
          List.replicate 4 0 ++ List.replicate 12 0xFFFFFFFF ++ [0x11111111] ++
            List.replicate 111 0xFFFFFFFF)] := by
  decide

/-- C4 (evaluation at the failing input): a write of two pages at offset 0. The
second pass starts at offset 512 and its command word is 0xA5001001, page
number 512 / 128 * 4 = 16, not 0xA5000101 = 0xA5000000 | 1 | (512/512 << 8). -/
theorem programSequence_second_page_command :
    (programSequence (readyEnv (fun _ => 0)) 1 State.init 0 (fun i => i) 1024).map
        (fun r => (r.2, commandWords r.1.trace)) =
      some (RetCode.ERROR_OK, [0xA5000003, 0xA5000001, 0xA5000003, 0xA5001001]) ∧
    (0xA5001001 : Nat) ≠ 0xA5000000 ||| 1 ||| ((512 / 512) <<< 8) := by
  decide

/-- C6 (evaluation at the failing input): offset 4 and length 0xFFFFFFFC are 32-bit
values whose sum exceeds the device size, but the sum computed in `uint32_t`
wraps to 0 and the request passes the bounds check: instead of returning
ERROR_FAIL untouched, programSequence enters the page loop, clears the page buffer
and issues the preserve-read of page 0 with count 0xFFFFFFFC (which overruns the
local array, so the run is undefined from there). The check is passed in the
same way, without any overrun, by offset 512 and length 0xFFFFFE00, whose sum
wraps to 0 as well: page 1 is block-written and committed with WRITE_PAGE
(command 0xA5001001), and on a device that refuses the second block write the
run ends there, in the second pass, after 256 in-bounds stores. -/
theorem programSequence_wrapped_sum_accepted :
    mDeviceSize < 4 + 4294967292 ∧
    (programSequence (readyEnv (fun _ => 0)) 1 State.init 4 (fun _ => 0) 4294967292).map
        (fun r => (r.2, strip r.1.trace)) =
      some (RetCode.UNDEFINED_BEHAVIOUR,
        [Event.regWrite FCMD 0xA5000003, Event.blockRead mBaseAddress 4 4294967292]) ∧
    mDeviceSize < 512 + 4294966784 ∧
    (programSequence (failingWriteEnv 1) 1 State.init 512 (fun _ => 0) 4294966784).map
        (fun r => (commandWords r.1.trace, (blockWritesOf r.1.trace).map (fun w => (w.1, w.2.1)),
          r.1.stores.length)) =
      some ([0xA5000003, 0xA5001001, 0xA5000003],
        [(mBaseAddress + 512, 128), (mBaseAddress + 1024, 128)], 256) := by
  decide


/-- C7 (counterexample): offset 0x00800000 is at least the device size, and
programSequence rejects the request with ERROR_FAIL, but only after the
user-page branch has read the user page, cleared the page buffer, block-written
the merged page and issued WRITE_USER_PAGE. -/
theorem programSequence_user_page_then_reject :
    mDeviceSize ≤ USER_PAGE_OFFSET ∧
    (programSequence (readyEnv (fun _ => 0)) 1 State.init USER_PAGE_OFFSET (fun _ => 0) 4).map
        (fun r => (r.2, commandWords r.1.trace, blockReadsOf r.1.trace,
          (blockWritesOf r.1.trace).map (fun w => (w.1, w.2.1)))) =
      some (RetCode.ERROR_FAIL, [0xA5000003, 0xA500000D], [(0x80800000, 512)],
        [(0x80800000, 512)]) := by
  decide

/-- C7 (amended): a request whose offset lies outside the user-page window and
which the bounds check rejects (offset at least the device size, or the 32-bit
sum offset + length above it) returns ERROR_FAIL with the state untouched: no
register access, no block transfer, no command. -/
theorem programSequence_reject_no_transaction (env : Env) (pf : Nat) (s : State) (offset : Nat)
    (dataBuffer : Nat → Nat) (dataSize : Nat)
    (hu : ¬ (USER_PAGE_OFFSET ≤ offset ∧ offset < USER_PAGE_OFFSET + 512))
    (hb : mDeviceSize ≤ offset ∨ mDeviceSize < (offset + dataSize) % 4294967296) :
    programSequence env pf s offset dataBuffer dataSize = some (s, RetCode.ERROR_FAIL) := by
  rw [programSequence_main env pf s offset dataBuffer dataSize hu, if_pos hb]

/-- Witness for C7 (amended): the request of the spec's scenario, 20 bytes at
deviceSize - 10, with an empty trace before and after. -/
theorem programSequence_reject_no_transaction_witness :
    programSequence (readyEnv (fun _ => 0)) 1 State.init (mDeviceSize - 10) (fun _ => 0) 20 =
      some (State.init, RetCode.ERROR_FAIL) ∧ State.init.trace = [] :=
  ⟨programSequence_reject_no_transaction (readyEnv (fun _ => 0)) 1 State.init (mDeviceSize - 10)
    (fun _ => 0) 20 (by decide) (by decide), rfl⟩

/-- C8 (evaluation at the failing input): unlockRegion(512, 10) issues the single
command 0xA5001005, page number 512 / 128 * 4 = 16, not 0xA5000105. -/
theorem unlockRegion_512_10_command :
    (unlockRegion (readyEnv (fun _ => 0)) 1 State.init 512 10).map
        (fun r => (r.2, commandWords r.1.trace)) =
      some (RetCode.ERROR_OK, [0xA5001005]) ∧
    (0xA5001005 : Nat) ≠ 0xA5000000 ||| 5 ||| ((512 / 512) <<< 8) := by
  decide

/-- C9: for every offset and size whose range starts inside the user-page window
[0x00800000, 0x00800200) and ends inside it, unlockRegion returns ERROR_OK at
once, with the state (hence the trace) untouched: no command, no transaction. -/
theorem unlockRegion_user_page_no_command (env : Env) (pf : Nat) (s : State) (offset size : Nat)
    (h1 : USER_PAGE_OFFSET ≤ offset) (h2 : offset < USER_PAGE_OFFSET + 512)
    (_h3 : offset + size ≤ USER_PAGE_OFFSET + 512) :
    unlockRegion env pf s offset size = some (s, RetCode.ERROR_OK) := by
  have h : USER_PAGE_OFFSET ≤ offset ∧ offset < USER_PAGE_OFFSET + WORDS_PER_PAGE * 4 := ⟨h1, h2⟩
  simp only [unlockRegion, h, and_self, if_true]

/-- Witness for C9: 16 bytes at offset 0x00800010. -/
theorem unlockRegion_user_page_no_command_witness :
    unlockRegion (readyEnv (fun _ => 0)) 1 State.init 0x00800010 16 =
      some (State.init, RetCode.ERROR_OK) :=
  unlockRegion_user_page_no_command (readyEnv (fun _ => 0)) 1 State.init 0x00800010 16
    (by decide) (by decide) (by decide)

/-- C10: getInternalFlashSize reads the geometry register PR once and decodes the
size class c = r & 0x1F of the value r read: the table entry for c when c is at
most 14, and 0 (no value) when c is 15..31; no other bit of r matters. -/
theorem getInternalFlashSize_decodes (env : Env) (s : State) :
    (getInternalFlashSize env s).1.trace =
      s.trace ++ [Event.regRead PR (env.reg PR s.regReads)] ∧
    (env.reg PR s.regReads &&& 0x1F) ≤ 31 ∧
    (getInternalFlashSize env s).2 =
      if (env.reg PR s.regReads &&& 0x1F) ≤ 14 then
        [4096, 8192, 16384, 32768, 49152, 65536, 98304, 131072, 196608, 262144, 393216,
          524288, 786432, 1048576, 2072576].getD (env.reg PR s.regReads &&& 0x1F) 0
      else 0 := by
  have hle : (env.reg PR s.regReads &&& 0x1F) ≤ 31 := Nat.and_le_right
  refine ⟨rfl, hle, ?_⟩
  simp only [getInternalFlashSize, getRegister, PR_FSZ_MASK, PR_FSZ_OFFSET, Nat.shiftRight_zero]
  generalize env.reg PR s.regReads &&& 0x1F = c at hle ⊢
  interval_cases c <;> rfl

/-! ## The status poller -/

theorem maskBit (v k : Nat) : ((v &&& 2 ^ k) >>> k ≠ 0) ↔ v.testBit k = true := by
  have h : (v &&& 2 ^ k) >>> k = (v.testBit k).toNat := by
    apply Nat.eq_of_testBit_eq
    intro j
    rw [Nat.testBit_shiftRight, Nat.testBit_and, Nat.testBit_two_pow, Nat.testBit_bool_to_nat]
    by_cases hj : j = 0
    · subst hj; simp
    · have : ¬ (k = k + j) := by omega
      simp [hj, this]
  rw [h]
  cases v.testBit k <;> simp

theorem waitLoop_first (env : Env) (pf : Nat) (s : State) (start endT : Int)
    (h : endT - start < 1000) :
    (((env.reg FSR s.regReads).testBit 2 = true →
      waitLoop env (pf + 1) s start endT =
        some ((getRegister env s FSR).1, RetCode.ERROR_JTAG_DEVICE_ERROR)) ∧
    ((env.reg FSR s.regReads).testBit 2 = false → (env.reg FSR s.regReads).testBit 3 = true →
      waitLoop env (pf + 1) s start endT =
        some ((getRegister env s FSR).1, RetCode.ERROR_COMMAND_SYNTAX_ERROR)) ∧
    ((env.reg FSR s.regReads).testBit 2 = false → (env.reg FSR s.regReads).testBit 3 = false →
      (env.reg FSR s.regReads).testBit 0 = true →
      waitLoop env (pf + 1) s start endT =
        some ((getRegister env s FSR).1, RetCode.ERROR_OK))) ∧
    ((env.reg FSR s.regReads).testBit 2 = false → (env.reg FSR s.regReads).testBit 3 = false →
      (env.reg FSR s.regReads).testBit 0 = false →
      waitLoop env (pf + 1) s start endT =
        waitLoop env pf (timeval_ms env (getRegister env s FSR).1).1 start
          (timeval_ms env (getRegister env s FSR).1).2) := by
  have b2 := maskBit (env.reg FSR s.regReads) 2
  have b3 := maskBit (env.reg FSR s.regReads) 3
  have b0 := maskBit (env.reg FSR s.regReads) 0
  have e2 : (2 : Nat) ^ 2 = FSR_LOCKE_MASK := rfl
  have e3 : (2 : Nat) ^ 3 = FSR_PROGE_MASK := rfl
  have e0 : (2 : Nat) ^ 0 = FSR_FRDY_MASK := rfl
  rw [e2] at b2
  rw [e3] at b3
  rw [e0] at b0
  refine ⟨⟨?_, ?_, ?_⟩, ?_⟩
  · intro h2
    have c2 := b2.mpr h2
    rw [waitLoop]
    simp only [h, if_true, getRegister]
    rw [if_pos c2]
  · intro h2 h3
    have c2 : ¬ ((env.reg FSR s.regReads &&& FSR_LOCKE_MASK) >>> 2 ≠ 0) := by
      rw [b2]; simp [h2]
    have c3 := b3.mpr h3
    rw [waitLoop]
    simp only [h, if_true, getRegister]
    rw [if_neg c2, if_pos c3]
  · intro h2 h3 h0
    have c2 : ¬ ((env.reg FSR s.regReads &&& FSR_LOCKE_MASK) >>> 2 ≠ 0) := by
      rw [b2]; simp [h2]
    have c3 : ¬ ((env.reg FSR s.regReads &&& FSR_PROGE_MASK) >>> 3 ≠ 0) := by
      rw [b3]; simp [h3]
    have c0 := b0.mpr h0
    rw [waitLoop]
    simp only [h, if_true, getRegister]
    rw [if_neg c2, if_neg c3, if_pos c0]
  · intro h2 h3 h0
    have c2 : ¬ ((env.reg FSR s.regReads &&& FSR_LOCKE_MASK) >>> 2 ≠ 0) := by
      rw [b2]; simp [h2]
    have c3 : ¬ ((env.reg FSR s.regReads &&& FSR_PROGE_MASK) >>> 3 ≠ 0) := by
      rw [b3]; simp [h3]
    have c0 : ¬ ((env.reg FSR s.regReads &&& FSR_FRDY_MASK) >>> 0 ≠ 0) := by
      rw [b0]; simp [h0]
    rw [waitLoop]
    simp only [h, if_true, getRegister]
    rw [if_neg c2, if_neg c3, if_neg c0]

theorem waitFlashReady_eq (env : Env) (pf : Nat) (s : State) :
    waitFlashReady env pf s =
      waitLoop env pf { s with ticks := s.ticks + 2 } (env.clock (s.ticks + 1))
        (env.clock s.ticks) := rfl

theorem waitLoop_expired (env : Env) (pf : Nat) (s : State) (start endT : Int)
    (h : ¬ endT - start < 1000) :
    waitLoop env pf s start endT = some (s, RetCode.ERROR_TIMEOUT_REACHED) := by
  cases pf with
  | zero => rw [waitLoop, if_neg h]
  | succ n => rw [waitLoop, if_neg h]

/-- While the status register shows neither ready nor an error, the poll loop
spins: if the clock readings taken after the first k status reads are still
within 1000 ms of start and the next one is not, the loop returns the timeout
after k + 1 status reads and k + 1 clock readings, whatever bound above k it is given. -/
theorem waitLoop_spin (env : Env)
    (hq : ∀ n, (env.reg FSR n).testBit 2 = false ∧ (env.reg FSR n).testBit 3 = false ∧
      (env.reg FSR n).testBit 0 = false) :
    ∀ (k pf : Nat) (s : State) (start endT : Int),
      k < pf → endT - start < 1000 →
      (∀ j, j < k → env.clock (s.ticks + j) - start < 1000) →
      1000 ≤ env.clock (s.ticks + k) - start →
      waitLoop env pf s start endT =
        some ({ s with trace := s.trace ++ spinReads env s.regReads (k + 1),
                       regReads := s.regReads + (k + 1), ticks := s.ticks + (k + 1) },
          RetCode.ERROR_TIMEOUT_REACHED) := by
  intro k
  induction k with
  | zero =>
    intro pf s start endT hpf he _ hk
    obtain ⟨n, rfl⟩ : ∃ n, pf = n + 1 := ⟨pf - 1, by omega⟩
    obtain ⟨q2, q3, q0⟩ := hq s.regReads
    rw [(waitLoop_first env n s start endT he).2 q2 q3 q0]
    rw [waitLoop_expired]
    · simp [timeval_ms, getRegister, spinReads]
    · simp only [timeval_ms, getRegister]
      have : env.clock (s.ticks + 0) = env.clock s.ticks := rfl
      omega
  | succ k ih =>
    intro pf s start endT hpf he hj hk
    obtain ⟨n, rfl⟩ : ∃ n, pf = n + 1 := ⟨pf - 1, by omega⟩
    obtain ⟨q2, q3, q0⟩ := hq s.regReads
    rw [(waitLoop_first env n s start endT he).2 q2 q3 q0]
    rw [ih n _ start _ (by omega)]
    · simp only [timeval_ms, getRegister, spinReads, List.append_assoc, List.singleton_append]
      congr 2
      simp only [State.mk.injEq, true_and]
      exact ⟨by omega, by omega, trivial⟩
    · simp only [timeval_ms, getRegister]
      have := hj 0 (by omega)
      simpa using this
    · intro j hjk
      simp only [timeval_ms, getRegister]
      have := hj (j + 1) (by omega)
      have e : s.ticks + 1 + j = s.ticks + (j + 1) := by omega
      rw [e]; exact this
    · simp only [timeval_ms, getRegister]
      have e : s.ticks + 1 + k = s.ticks + (k + 1) := by omega
      rw [e]; exact hk

/-! ## Erase, unlock and user page: execution on a device whose polls return -/

theorem eraseSequence_exec (env : Env) (pf : Nat) (hp : PollsReturn env pf) (s : State) :
    ∃ s1 : State, eraseSequence env pf s = some (s1, RetCode.ERROR_OK) ∧
      strip s1.trace = strip s.trace ++ [Event.regWrite FCMD (WRITE_PROTECT_KEY ||| CMD_ERASE_ALL)] ∧
      s1.writes32 = s.writes32 ∧ s1.stores = s.stores := by
  obtain ⟨a, b, ha, hb, h1, h2, h3⟩ :=
    bracket_exec env pf hp s (WRITE_PROTECT_KEY ||| CMD_ERASE_ALL)
  refine ⟨b.1, ?_, h1, h2, h3⟩
  simp [eraseSequence, ha, hb]

theorem unlockLoop_succ (env : Env) (pf last fuel : Nat) (s : State) (page pagenr : Nat) :
    unlockLoop env pf last (fuel + 1) s page pagenr =
      if pagenr ≤ last then
        (waitFlashReady env pf s).bind (fun w1 =>
          (waitFlashReady env pf (writeCommand w1.1 (unlockCommand pagenr))).bind (fun w2 =>
            unlockLoop env pf last fuel w2.1 ((page + WORDS_PER_PAGE * 4) % 4294967296)
              ((page + WORDS_PER_PAGE * 4) % 4294967296 / WORDS_PER_PAGE * 4 % 4294967296)))
      else some (s, RetCode.ERROR_OK) := by
  rfl

/-- With polls that return, the unlock loop returns ERROR_OK and its transactions,
status reads apart, are those listed by unlockEvents. -/
theorem unlockLoop_exec (env : Env) (pf : Nat) (hp : PollsReturn env pf) (last : Nat)
    (hl : last ≤ 16384) :
    ∀ (fuel : Nat) (s : State) (page pagenr : Nat),
      last + 1 - pagenr ≤ fuel → page % 512 = 0 → page / 32 ≤ pagenr → pagenr < page / 32 + 16 →
      ∃ s1 : State,
        unlockLoop env pf last fuel s page pagenr = some (s1, RetCode.ERROR_OK) ∧
        strip s1.trace = strip s.trace ++ unlockEvents last fuel page pagenr ∧
        s1.writes32 = s.writes32 ∧ s1.stores = s.stores := by
  intro fuel
  induction fuel with
  | zero =>
    intro s page pagenr hf _ _ _
    have h : ¬ pagenr ≤ last := by omega
    exact ⟨s, by simp [unlockLoop, h], by simp [unlockEvents], rfl, rfl⟩
  | succ n ih =>
    intro s page pagenr hf h1 h2 h3
    by_cases h : pagenr ≤ last
    · obtain ⟨a, b, ha, hb, tb, wb, sb⟩ := bracket_exec env pf hp s (unlockCommand pagenr)
      have hP : (page + WORDS_PER_PAGE * 4) % 4294967296 = page + 512 := by
        simp only [WORDS_PER_PAGE]; omega
      have hN : (page + 512) / WORDS_PER_PAGE * 4 % 4294967296 = page / 32 + 16 := by
        simp only [WORDS_PER_PAGE]; omega
      obtain ⟨s1, e1, t1, w1, q1⟩ := ih b.1 (page + 512) (page / 32 + 16)
        (by omega) (by omega) (by omega) (by omega)
      refine ⟨s1, ?_, ?_, by rw [w1, wb], by rw [q1, sb]⟩
      · rw [unlockLoop_succ]
        simp only [h, if_true, ha, hb, Option.some_bind, hP, hN, e1]
      · rw [t1, tb]
        simp only [unlockEvents, h, if_true, hP, hN, List.append_assoc, List.singleton_append]
    · exact ⟨s, by simp [unlockLoop, h], by simp [unlockEvents, h], rfl, rfl⟩

theorem unlockRegion_exec (env : Env) (pf : Nat) (hp : PollsReturn env pf) (s : State)
    (offset size : Nat) :
    ∃ (s1 : State) (r : RetCode), unlockRegion env pf s offset size = some (s1, r) ∧
      r = (if USER_PAGE_OFFSET ≤ offset ∧ offset < USER_PAGE_OFFSET + WORDS_PER_PAGE * 4 then
          RetCode.ERROR_OK
        else if mDeviceSize ≤ offset ∨ mDeviceSize < (offset + size) % 4294967296 then
          RetCode.ERROR_FAIL
        else RetCode.ERROR_OK) := by
  unfold unlockRegion
  split
  · exact ⟨s, _, rfl, rfl⟩
  · split
    · exact ⟨s, _, rfl, rfl⟩
    · rename_i hu hb
      simp only [mDeviceSize, not_or, not_le, not_lt] at hb
      obtain ⟨hb1, hb2⟩ := hb
      have hm := and_pageMask offset (by omega)
      obtain ⟨s1, e1, _⟩ := unlockLoop_exec env pf hp
        ((offset + size) % 4294967296 / WORDS_PER_PAGE * 4 % 4294967296)
        (by simp only [WORDS_PER_PAGE]; omega)
        ((offset + size) % 4294967296 / WORDS_PER_PAGE * 4 % 4294967296 + 1 -
          offset / WORDS_PER_PAGE * 4 % 4294967296) s (offset &&& 0xFFFFFE00)
        (offset / WORDS_PER_PAGE * 4 % 4294967296) (le_refl _)
        (by rw [hm]; omega) (by rw [hm]; simp only [WORDS_PER_PAGE]; omega)
        (by rw [hm]; simp only [WORDS_PER_PAGE]; omega)
      exact ⟨s1, _, e1, rfl⟩


theorem read_memory8_full (env : Env) (s : State) (addr n : Nat) (buffer : List Nat)
    (hl : buffer.length = n) :
    (avr32_jtag_read_memory8 env s addr n buffer).2 =
      (List.range n).map (fun i => env.mem8 ((addr + i) % 4294967296)) := by
  unfold avr32_jtag_read_memory8
  simp only [hl]
  apply List.map_congr_left
  intro i hi
  rw [List.mem_range] at hi
  rw [if_pos hi]

theorem strip_nonStatus (l : List Event) (h : ∀ e ∈ l, isStatusRead e = false) :
    strip l = l := strip_pageOps l h

/-- A programUserPage that passes its bounds check, on a device whose polls
return: it returns ERROR_OK and its transactions, status reads apart, are
userPageEvents. -/
theorem programUserPage_exec (env : Env) (pf : Nat) (hp : PollsReturn env pf) (s : State)
    (offset : Nat) (dataBuffer : Nat → Nat) (dataSize : Nat)
    (h1 : offset < 512) (h2 : (offset + dataSize) % 4294967296 ≤ 512) :
    ∃ s1 : State,
      programUserPage env pf s offset dataBuffer dataSize = some (s1, RetCode.ERROR_OK) ∧
      strip s1.trace = strip s.trace ++ userPageEvents env offset dataBuffer dataSize ∧
      s1.writes32 = s.writes32 ∧ s1.stores = s.stores := by
  have hb : ¬ (WORDS_PER_PAGE * 4 ≤ offset ∨
      WORDS_PER_PAGE * 4 < (offset + dataSize) % 4294967296) := by
    simp only [WORDS_PER_PAGE]; omega
  by_cases hc : 0 < offset ∨ dataSize < WORDS_PER_PAGE * 4
  · have hc2 : userPageIsPartial offset dataSize := hc
    obtain ⟨c, ec, tc, wc, sc⟩ := clearPageBuffer_exec env pf hp
      (avr32_jtag_read_memory8 env s userPageAddress (WORDS_PER_PAGE * 4)
        ((List.range (WORDS_PER_PAGE * 4)).map env.junk)).1
    obtain ⟨a, b, ha, hb2, tb, wb, sb⟩ := bracket_exec env pf hp
      (avr32_jtag_write_memory8 c userPageAddress (WORDS_PER_PAGE * 4)
        (userPacket env offset dataBuffer dataSize))
      (WRITE_PROTECT_KEY ||| CMD_WRITE_USER_PAGE)
    have hpk : (List.range (if dataSize < 2147483648 then dataSize else 0)).foldl
        (fun b i => b.set (offset + i) (dataBuffer i % 256))
        (avr32_jtag_read_memory8 env s userPageAddress (WORDS_PER_PAGE * 4)
          ((List.range (WORDS_PER_PAGE * 4)).map env.junk)).2 =
        userPacket env offset dataBuffer dataSize := by
      rw [read_memory8_full env s userPageAddress (WORDS_PER_PAGE * 4) _ (by simp)]
      simp only [userPacket, userPacketRead, hc2, if_true]
    refine ⟨b.1, ?_, ?_, ?_, ?_⟩
    · unfold programUserPage
      rw [if_neg hb]
      simp only [hc, if_true, Option.bind_eq_bind, ec, Option.some_bind, hpk, ha, hb2,
        Option.pure_def]
    · rw [tb]
      simp only [avr32_jtag_write_memory8, strip_append, tc, avr32_jtag_read_memory8,
        userPageEvents, hc2, if_true, List.append_assoc]
      rw [strip_nonStatus [Event.blockRead userPageAddress 1 (WORDS_PER_PAGE * 4)]
        (by intro e he; simp only [List.mem_singleton] at he; subst he; rfl),
        strip_nonStatus [Event.blockWrite userPageAddress 1 (WORDS_PER_PAGE * 4) _]
        (by intro e he; simp only [List.mem_singleton] at he; subst he; rfl)]
      simp
    · rw [wb]; simp only [avr32_jtag_write_memory8]; rw [wc]; rfl
    · rw [sb]; simp only [avr32_jtag_write_memory8]; rw [sc]; rfl
  · have hc2 : ¬ userPageIsPartial offset dataSize := hc
    obtain ⟨c, ec, tc, wc, sc⟩ := clearPageBuffer_exec env pf hp s
    obtain ⟨a, b, ha, hb2, tb, wb, sb⟩ := bracket_exec env pf hp
      (avr32_jtag_write_memory8 c userPageAddress (WORDS_PER_PAGE * 4)
        (userPacket env offset dataBuffer dataSize))
      (WRITE_PROTECT_KEY ||| CMD_WRITE_USER_PAGE)
    have hpk : (List.range (if dataSize < 2147483648 then dataSize else 0)).foldl
        (fun b i => b.set (offset + i) (dataBuffer i % 256))
        ((List.range (WORDS_PER_PAGE * 4)).map env.junk) =
        userPacket env offset dataBuffer dataSize := by
      simp [userPacket, userPacketRead, hc2]
    refine ⟨b.1, ?_, ?_, ?_, ?_⟩
    · unfold programUserPage
      rw [if_neg hb]
      simp only [hc, if_false, Option.bind_eq_bind, ec, Option.some_bind, hpk, ha, hb2,
        Option.pure_def]
    · rw [tb]
      simp only [avr32_jtag_write_memory8, strip_append, tc,
        userPageEvents, hc2, if_false, List.append_assoc]
      rw [strip_nonStatus [Event.blockWrite userPageAddress 1 (WORDS_PER_PAGE * 4) _]
        (by intro e he; simp only [List.mem_singleton] at he; subst he; rfl)]
      simp
    · rw [wb]; simp only [avr32_jtag_write_memory8]; rw [wc]
    · rw [sb]; simp only [avr32_jtag_write_memory8]; rw [sc]

/-! ## The program loop on every request: how a run ends -/

theorem commandWords_noCommand (l : List Event)
    (h : ∀ e ∈ l, isStatusRead e = false ∧ ∀ c, e ≠ Event.regWrite FCMD c) :
    commandWords l = [] := by
  induction l with
  | nil => rfl
  | cons e l ih =>
    have he := (h e (List.mem_cons_self _ _)).2
    have hl := ih (fun x hx => h x (List.mem_cons_of_mem _ hx))
    cases e with
    | regRead a v => simpa [commandWords] using hl
    | regWrite a v =>
      by_cases ha : a = FCMD
      · subst ha; exact absurd rfl (he v)
      · simpa [commandWords, ha] using hl
    | blockRead a w c => simpa [commandWords] using hl
    | blockWrite a w c b => simpa [commandWords] using hl

/-- One pass of the program loop on a device whose polls return. After the
page-buffer clear and the middle of the pass the run either stops at an access
outside the array, or stops with ERROR_FAIL on a refused block write, or commits
the page with one WRITE_PAGE command and goes on with the next pass. -/
theorem programLoop_pass (env : Env) (pf : Nat) (dataBuffer : Nat → Nat) (dataSize : Nat)
    (hp : PollsReturn env pf) (fuel : Nat) (s : State) (offset page bytesLeft : Nat)
    (hpos : 0 < bytesLeft) :
    ∃ st : State,
      commandWords st.trace =
        commandWords s.trace ++ [WRITE_PROTECT_KEY ||| CMD_CLEAR_PAGE_BUFFER] ∧
      ((programLoop env pf dataBuffer dataSize (fuel + 1) s offset page bytesLeft =
            some (st, RetCode.UNDEFINED_BEHAVIOUR) ∧ st.writes32 = s.writes32) ∨
        (programLoop env pf dataBuffer dataSize (fuel + 1) s offset page bytesLeft =
            some (st, RetCode.ERROR_FAIL) ∧ st.writes32 = s.writes32 + 1 ∧
          env.writeOk s.writes32 = false) ∨
        (env.writeOk s.writes32 = true ∧
          ∃ b : State,
            programLoop env pf dataBuffer dataSize (fuel + 1) s offset page bytesLeft =
              programLoop env pf dataBuffer dataSize fuel b
                ((page + WORDS_PER_PAGE * 4) % 4294967296)
                ((page + WORDS_PER_PAGE * 4) % 4294967296)
                (bytesLeft - chunkSize offset page bytesLeft) ∧
            commandWords b.trace = commandWords st.trace ++ [writePageCommand offset] ∧
            b.writes32 = s.writes32 + 1)) := by
  obtain ⟨c, hc, tc, wc, _⟩ := clearPageBuffer_exec env pf hp s
  obtain ⟨evs, g1, g2, g3⟩ := stagePage_frame env dataBuffer dataSize c offset page bytesLeft
  refine ⟨(stagePage env dataBuffer dataSize c offset page bytesLeft).1, ?_, ?_⟩
  · rw [g1, commandWords_append, commandWords_noCommand evs g2, List.append_nil,
      ← commandWords_strip c.trace, tc, commandWords_append, commandWords_strip]
    rfl
  · rcases g3 with ⟨gu, gw⟩ | ⟨gr, gw⟩
    · left
      refine ⟨?_, by rw [gw, wc]⟩
      rw [programLoop_succ]
      simp only [hpos, if_true, hc, Option.some_bind, gu]
    · rw [wc] at gr
      cases hw : env.writeOk s.writes32 with
      | false =>
        right; left
        rw [hw] at gr
        refine ⟨?_, by rw [gw, wc], rfl⟩
        rw [programLoop_succ]
        simp [hpos, hc, gr]
      | true =>
        right; right
        rw [hw] at gr
        obtain ⟨a, b, ha, hb, tb, wb, _⟩ :=
          bracket_exec env pf hp (stagePage env dataBuffer dataSize c offset page bytesLeft).1
            (writePageCommand offset)
        refine ⟨rfl, b.1, ?_, ?_, by rw [wb, gw, wc]⟩
        · rw [programLoop_succ]
          simp [hpos, hc, gr, ha, hb]
        · rw [← commandWords_strip b.1.trace, tb, commandWords_append, commandWords_strip]
          rfl

/-- On a device whose polls return, the program loop started inside a page always
ends: with ERROR_OK after block writes that all succeeded, with ERROR_FAIL right
after a block write that the device refused, or at an access outside the array. -/
theorem programLoop_returns (env : Env) (pf : Nat) (dataBuffer : Nat → Nat) (dataSize : Nat)
    (hp : PollsReturn env pf) :
    ∀ (fuel : Nat) (s : State) (offset page bytesLeft : Nat),
      bytesLeft ≤ fuel → page ≤ offset → offset < page + 512 →
      ∃ (s1 : State) (r : RetCode),
        programLoop env pf dataBuffer dataSize fuel s offset page bytesLeft = some (s1, r) ∧
        s.writes32 ≤ s1.writes32 ∧
        ((r = RetCode.ERROR_OK ∧
            ∀ k, s.writes32 ≤ k → k < s1.writes32 → env.writeOk k = true) ∨
          (r = RetCode.ERROR_FAIL ∧ s.writes32 < s1.writes32 ∧
            env.writeOk (s1.writes32 - 1) = false) ∨
          r = RetCode.UNDEFINED_BEHAVIOUR) := by
  intro fuel
  induction fuel with
  | zero =>
    intro s offset page bytesLeft hf _ _
    have : bytesLeft = 0 := by omega
    subst this
    exact ⟨s, _, by simp [programLoop], le_refl _, Or.inl ⟨rfl, fun k h1 h2 => by omega⟩⟩
  | succ n ih =>
    intro s offset page bytesLeft hf h1 h2
    by_cases hpos : 0 < bytesLeft
    · obtain ⟨k1, k2, _⟩ := chunkSize_bounds offset page bytesLeft hpos h1 h2
      obtain ⟨st, _, hcase⟩ := programLoop_pass env pf dataBuffer dataSize hp n s offset page
        bytesLeft hpos
      rcases hcase with ⟨e, w⟩ | ⟨e, w, hw⟩ | ⟨hw, b, e, _, wb⟩
      · exact ⟨st, _, e, by omega, Or.inr (Or.inr rfl)⟩
      · refine ⟨st, _, e, by omega, Or.inr (Or.inl ⟨rfl, by omega, ?_⟩)⟩
        have e1 : st.writes32 - 1 = s.writes32 := by omega
        rw [e1]; exact hw
      · obtain ⟨s1, r, e1, w1, hr⟩ := ih b ((page + WORDS_PER_PAGE * 4) % 4294967296)
          ((page + WORDS_PER_PAGE * 4) % 4294967296)
          (bytesLeft - chunkSize offset page bytesLeft) (by omega) (le_refl _) (by omega)
        refine ⟨s1, r, by rw [e, e1], by omega, ?_⟩
        rcases hr with ⟨r1, r2⟩ | ⟨r1, r2, r3⟩ | r1
        · refine Or.inl ⟨r1, ?_⟩
          intro k hk1 hk2
          by_cases hk : k = s.writes32
          · rw [hk]; exact hw
          · exact r2 k (by omega) hk2
        · exact Or.inr (Or.inl ⟨r1, by omega, r3⟩)
        · exact Or.inr (Or.inr r1)
    · have : bytesLeft = 0 := by omega
      subst this
      exact ⟨s, _, by simp [programLoop], le_refl _, Or.inl ⟨rfl, fun k h1 h2 => by omega⟩⟩


/-! ## The fill loops as list updates -/

theorem foldl_set_length (f : Nat → Nat) (off : Nat) :
    ∀ (n : Nat) (b : List Nat),
      ((List.range n).foldl (fun b i => b.set (off + i) (f i)) b).length = b.length := by
  intro n
  induction n with
  | zero => intro b; rfl
  | succ n ih =>
    intro b
    rw [List.range_succ, List.foldl_append]
    simp [ih]

theorem foldl_set_getElem? (f : Nat → Nat) (off : Nat) :
    ∀ (n : Nat) (b : List Nat) (j : Nat),
      ((List.range n).foldl (fun b i => b.set (off + i) (f i)) b)[j]? =
        if off ≤ j ∧ j < off + n ∧ j < b.length then some (f (j - off)) else b[j]? := by
  intro n
  induction n with
  | zero =>
    intro b j
    have : ¬ (off ≤ j ∧ j < off + 0 ∧ j < b.length) := by omega
    rw [if_neg this]
    rfl
  | succ n ih =>
    intro b j
    rw [List.range_succ, List.foldl_append]
    simp only [List.foldl_cons, List.foldl_nil]
    rw [List.getElem?_set, foldl_set_length, ih]
    by_cases h1 : off + n = j
    · subst h1
      by_cases h2 : off + n < b.length
      · have c1 : off ≤ off + n ∧ off + n < off + (n + 1) ∧ off + n < b.length := by omega
        simp [h2, c1]
      · have c1 : ¬ (off ≤ off + n ∧ off + n < off + (n + 1) ∧ off + n < b.length) := by omega
        have c2 : b[off + n]? = none := List.getElem?_eq_none (by omega)
        simp [h2, c1, c2]
    · rw [if_neg h1]
      by_cases h3 : off ≤ j ∧ j < off + n ∧ j < b.length
      · have c1 : off ≤ j ∧ j < off + (n + 1) ∧ j < b.length := by omega
        rw [if_pos h3, if_pos c1]
      · have c1 : ¬ (off ≤ j ∧ j < off + (n + 1) ∧ j < b.length) := by omega
        rw [if_neg h3, if_neg c1]


theorem userPacketRead_length (env : Env) (offset dataSize : Nat) :
    (userPacketRead env offset dataSize).length = 512 := by
  unfold userPacketRead
  split
  · rw [List.length_map, List.length_range]; rfl
  · rw [List.length_map, List.length_range]; rfl

theorem userPacket_length (env : Env) (offset : Nat) (dataBuffer : Nat → Nat) (dataSize : Nat) :
    (userPacket env offset dataBuffer dataSize).length = 512 := by
  unfold userPacket
  rw [foldl_set_length, userPacketRead_length]

/-- Outside the bytes [offset, offset + dataSize) the packet of a partial user-page
write is the user page as read. -/
theorem userPacket_outside (env : Env) (offset : Nat) (dataBuffer : Nat → Nat) (dataSize : Nat)
    (hc : userPageIsPartial offset dataSize) (hs : dataSize < 2147483648) (j : Nat) (hj : j < 512)
    (ho : j < offset ∨ offset + dataSize ≤ j) :
    (userPacket env offset dataBuffer dataSize)[j]? =
      some (env.mem8 ((userPageAddress + j) % 4294967296)) := by
  unfold userPacket
  rw [foldl_set_getElem?, if_pos hs]
  have c : ¬ (offset ≤ j ∧ j < offset + dataSize ∧
      j < (userPacketRead env offset dataSize).length) := by omega
  rw [if_neg c]
  unfold userPacketRead
  rw [if_pos hc, List.getElem?_map, List.getElem?_range (by simpa using hj)]
  rfl

/-- Inside the bytes [offset, offset + dataSize) byte offset + i of the packet is the
low byte of word i of dataBuffer. -/
theorem userPacket_inside (env : Env) (offset : Nat) (dataBuffer : Nat → Nat) (dataSize : Nat)
    (hs : dataSize < 2147483648) (i : Nat) (hi : i < dataSize) (hb : offset + dataSize ≤ 512) :
    (userPacket env offset dataBuffer dataSize)[offset + i]? = some (dataBuffer i % 256) := by
  unfold userPacket
  rw [foldl_set_getElem?, if_pos hs]
  have hl := userPacketRead_length env offset dataSize
  have c : offset ≤ offset + i ∧ offset + i < offset + dataSize ∧
      offset + i < (userPacketRead env offset dataSize).length := by omega
  rw [if_pos c]
  simp

/-! ## Claims on the status poller -/

theorem steadyEnv_monotonic (status : Nat) (step : Int) (h : 0 ≤ step) :
    MonotonicClock (steadyEnv status step) := by
  intro n
  show step * (n : Int) ≤ step * ((n + 1 : Nat) : Int)
  push_cast
  nlinarith

/-- When the clock reading taken before start is less than 1000 ms after it, the
poll is decided by the first status read, if that read shows an error or ready. -/
theorem waitFlashReady_decides (env : Env) (pf : Nat) (s : State)
    (h : env.clock s.ticks - env.clock (s.ticks + 1) < 1000) :
    ((env.reg FSR s.regReads).testBit 2 = true →
      waitFlashReady env (pf + 1) s =
        some ({ s with trace := s.trace ++ [Event.regRead FSR (env.reg FSR s.regReads)],
                       regReads := s.regReads + 1, ticks := s.ticks + 2 },
          RetCode.ERROR_JTAG_DEVICE_ERROR)) ∧
    ((env.reg FSR s.regReads).testBit 2 = false → (env.reg FSR s.regReads).testBit 3 = true →
      waitFlashReady env (pf + 1) s =
        some ({ s with trace := s.trace ++ [Event.regRead FSR (env.reg FSR s.regReads)],
                       regReads := s.regReads + 1, ticks := s.ticks + 2 },
          RetCode.ERROR_COMMAND_SYNTAX_ERROR)) ∧
    ((env.reg FSR s.regReads).testBit 2 = false → (env.reg FSR s.regReads).testBit 3 = false →
      (env.reg FSR s.regReads).testBit 0 = true →
      waitFlashReady env (pf + 1) s =
        some ({ s with trace := s.trace ++ [Event.regRead FSR (env.reg FSR s.regReads)],
                       regReads := s.regReads + 1, ticks := s.ticks + 2 },
          RetCode.ERROR_OK)) := by
  have key := (waitLoop_first env pf { s with ticks := s.ticks + 2 } (env.clock (s.ticks + 1))
    (env.clock s.ticks) h).1
  rw [waitFlashReady_eq]
  exact key

/-- A device whose every status read shows the lock error, the program error or
ready, under a monotonic clock: every poll returns after its first read. -/
theorem pollsReturn_of_decided (env : Env) (hm : MonotonicClock env)
    (hd : ∀ n, (env.reg FSR n).testBit 2 = true ∨ (env.reg FSR n).testBit 3 = true ∨
      (env.reg FSR n).testBit 0 = true) (pf : Nat) :
    PollsReturn env (pf + 1) := by
  intro s
  have h : env.clock s.ticks - env.clock (s.ticks + 1) < 1000 := by
    have := hm s.ticks
    omega
  obtain ⟨⟨k2, k3, k0⟩, _⟩ := waitLoop_first env pf { s with ticks := s.ticks + 2 }
    (env.clock (s.ticks + 1)) (env.clock s.ticks) h
  rw [waitFlashReady_eq]
  cases h2 : (env.reg FSR s.regReads).testBit 2 with
  | true => rw [k2 h2]; rfl
  | false =>
    cases h3 : (env.reg FSR s.regReads).testBit 3 with
    | true => rw [k3 h2 h3]; rfl
    | false =>
      have h0 : (env.reg FSR s.regReads).testBit 0 = true := by
        rcases hd s.regReads with h | h | h
        · rw [h2] at h; cases h
        · rw [h3] at h; cases h
        · exact h
      rw [k0 h2 h3 h0]; rfl

/-- C11: under a monotonic clock waitFlashReady decides on its first status read v,
with fixed priority: lock-error bit (bit 2) set gives ERROR_JTAG_DEVICE_ERROR;
else program-error bit (bit 3) set gives ERROR_COMMAND_SYNTAX_ERROR; else ready
bit (bit 0) set gives ERROR_OK. In all three cases the final state has exactly
one more transaction, the status read, and only the two clock readings taken
before the loop: no waiting for the timeout. -/
theorem waitFlashReady_first_read (env : Env) (pf : Nat) (s : State)
    (hm : MonotonicClock env) :
    ((env.reg FSR s.regReads).testBit 2 = true →
      waitFlashReady env (pf + 1) s =
        some ({ s with trace := s.trace ++ [Event.regRead FSR (env.reg FSR s.regReads)],
                       regReads := s.regReads + 1, ticks := s.ticks + 2 },
          RetCode.ERROR_JTAG_DEVICE_ERROR)) ∧
    ((env.reg FSR s.regReads).testBit 2 = false → (env.reg FSR s.regReads).testBit 3 = true →
      waitFlashReady env (pf + 1) s =
        some ({ s with trace := s.trace ++ [Event.regRead FSR (env.reg FSR s.regReads)],
                       regReads := s.regReads + 1, ticks := s.ticks + 2 },
          RetCode.ERROR_COMMAND_SYNTAX_ERROR)) ∧
    ((env.reg FSR s.regReads).testBit 2 = false → (env.reg FSR s.regReads).testBit 3 = false →
      (env.reg FSR s.regReads).testBit 0 = true →
      waitFlashReady env (pf + 1) s =
        some ({ s with trace := s.trace ++ [Event.regRead FSR (env.reg FSR s.regReads)],
                       regReads := s.regReads + 1, ticks := s.ticks + 2 },
          RetCode.ERROR_OK)) := by
  have h : env.clock s.ticks - env.clock (s.ticks + 1) < 1000 := by
    have := hm s.ticks
    omega
  exact waitFlashReady_decides env pf s h

/-- Witness for C11: a status of 0xD has the lock-error, program-error and ready
bits all set; the poll answers the lock error after one read. -/
theorem waitFlashReady_first_read_witness :
    waitFlashReady (steadyEnv 13 1) 1 State.init =
      some (⟨[Event.regRead FSR 13], 1, 2, 0, []⟩, RetCode.ERROR_JTAG_DEVICE_ERROR) :=
  (waitFlashReady_first_read (steadyEnv 13 1) 0 State.init
    (steadyEnv_monotonic 13 1 (by decide))).1 (by decide)

/-- C12: if every status read shows the ready, program-error and lock-error bits
clear, the clock is monotonic and some later reading reaches start + 1000, then
waitFlashReady returns ERROR_TIMEOUT_REACHED for every loop bound above k, where
the reading taken after the (k+1)-th status read is the first with
t - start at least 1000; every earlier reading, the one taken before start
included, is less than 1000 after start. -/
theorem waitFlashReady_timeout (env : Env) (s : State)
    (hq : ∀ n, (env.reg FSR n).testBit 2 = false ∧ (env.reg FSR n).testBit 3 = false ∧
      (env.reg FSR n).testBit 0 = false)
    (hm : MonotonicClock env)
    (hreach : ∃ k, 1000 ≤ env.clock (s.ticks + 2 + k) - env.clock (s.ticks + 1)) :
    ∃ k : Nat,
      (∀ pf, k < pf →
        waitFlashReady env pf s =
          some ({ s with trace := s.trace ++ spinReads env s.regReads (k + 1),
                         regReads := s.regReads + (k + 1), ticks := s.ticks + 2 + (k + 1) },
            RetCode.ERROR_TIMEOUT_REACHED)) ∧
      1000 ≤ env.clock (s.ticks + 2 + k) - env.clock (s.ticks + 1) ∧
      (∀ j, j < k → env.clock (s.ticks + 2 + j) - env.clock (s.ticks + 1) < 1000) ∧
      env.clock s.ticks - env.clock (s.ticks + 1) < 1000 := by
  classical
  have h0 : env.clock s.ticks - env.clock (s.ticks + 1) < 1000 := by
    have := hm s.ticks
    omega
  refine ⟨Nat.find hreach, ?_, Nat.find_spec hreach, ?_, h0⟩
  · intro pf hpf
    rw [waitFlashReady_eq]
    exact waitLoop_spin env hq (Nat.find hreach) pf { s with ticks := s.ticks + 2 }
      (env.clock (s.ticks + 1)) (env.clock s.ticks) hpf h0
      (fun j hj => by
        have := Nat.find_min hreach hj
        simp only [not_le] at this
        exact this)
      (Nat.find_spec hreach)
  · intro j hj
    have := Nat.find_min hreach hj
    simpa using this

/-- Witness for C12: a silent status register and a clock advancing 500 ms per
reading, started from the initial state (start = 500). -/
theorem waitFlashReady_timeout_witness :
    ∃ k : Nat,
      (∀ pf, k < pf →
        waitFlashReady (steadyEnv 0 500) pf State.init =
          some ({ State.init with
                    trace := State.init.trace ++ spinReads (steadyEnv 0 500) State.init.regReads (k + 1),
                    regReads := State.init.regReads + (k + 1),
                    ticks := State.init.ticks + 2 + (k + 1) },
            RetCode.ERROR_TIMEOUT_REACHED)) ∧
      1000 ≤ (steadyEnv 0 500).clock (State.init.ticks + 2 + k) -
        (steadyEnv 0 500).clock (State.init.ticks + 1) ∧
      (∀ j, j < k → (steadyEnv 0 500).clock (State.init.ticks + 2 + j) -
        (steadyEnv 0 500).clock (State.init.ticks + 1) < 1000) ∧
      (steadyEnv 0 500).clock State.init.ticks - (steadyEnv 0 500).clock (State.init.ticks + 1)
        < 1000 :=
  waitFlashReady_timeout (steadyEnv 0 500) State.init (fun _ => ⟨Nat.zero_testBit 2, Nat.zero_testBit 3, Nat.zero_testBit 0⟩)
    (steadyEnv_monotonic 0 500 (by decide)) ⟨1, by decide⟩


/-! ## Claims on error propagation -/

theorem programUserPage_returns (env : Env) (pf : Nat) (hp : PollsReturn env pf) (s : State)
    (offset : Nat) (dataBuffer : Nat → Nat) (dataSize : Nat) :
    ∃ (s1 : State) (r : RetCode),
      programUserPage env pf s offset dataBuffer dataSize = some (s1, r) ∧
      r = (if WORDS_PER_PAGE * 4 ≤ offset ∨
            WORDS_PER_PAGE * 4 < (offset + dataSize) % 4294967296 then
          RetCode.ERROR_FAIL
        else RetCode.ERROR_OK) := by
  by_cases hb : WORDS_PER_PAGE * 4 ≤ offset ∨
      WORDS_PER_PAGE * 4 < (offset + dataSize) % 4294967296
  · refine ⟨s, RetCode.ERROR_FAIL, ?_, by rw [if_pos hb]⟩
    unfold programUserPage
    rw [if_pos hb]
  · rw [if_neg hb]
    simp only [WORDS_PER_PAGE, not_or, not_le, not_lt] at hb
    obtain ⟨s1, e, _⟩ := programUserPage_exec env pf hp s offset dataBuffer dataSize
      (by omega) (by omega)
    exact ⟨s1, _, e, rfl⟩


theorem programSequence_userPage (env : Env) (pf : Nat) (s : State) (offset : Nat)
    (dataBuffer : Nat → Nat) (dataSize : Nat)
    (hu : USER_PAGE_OFFSET ≤ offset ∧ offset < USER_PAGE_OFFSET + WORDS_PER_PAGE * 4) :
    programSequence env pf s offset dataBuffer dataSize =
      (programUserPage env pf s (offset - USER_PAGE_OFFSET) dataBuffer dataSize).bind
        (fun u => some (u.1, RetCode.ERROR_FAIL)) := by
  have hb : mDeviceSize ≤ offset ∨ mDeviceSize < (offset + dataSize) % 4294967296 := by
    left
    have := hu.1
    simp only [USER_PAGE_OFFSET, mDeviceSize] at this ⊢
    omega
  simp only [programSequence, hu, and_self, if_true, Option.bind_eq_bind, hb]

/-- On a device whose polls return, programSequence always ends: with ERROR_FAIL
when its bounds check rejects; otherwise with ERROR_OK after block writes that
all succeeded, with ERROR_FAIL right after a block write that the device refused,
or at an access outside the local array. -/
theorem programSequence_returns (env : Env) (pf : Nat) (hp : PollsReturn env pf) (s : State)
    (offset : Nat) (dataBuffer : Nat → Nat) (dataSize : Nat) :
    ∃ (s1 : State) (r : RetCode),
      programSequence env pf s offset dataBuffer dataSize = some (s1, r) ∧
      (((mDeviceSize ≤ offset ∨ mDeviceSize < (offset + dataSize) % 4294967296) ∧
          r = RetCode.ERROR_FAIL) ∨
        (¬ (mDeviceSize ≤ offset ∨ mDeviceSize < (offset + dataSize) % 4294967296) ∧
          ((r = RetCode.ERROR_OK ∧
              ∀ k, s.writes32 ≤ k → k < s1.writes32 → env.writeOk k = true) ∨
            (r = RetCode.ERROR_FAIL ∧ s.writes32 < s1.writes32 ∧
              env.writeOk (s1.writes32 - 1) = false) ∨
            r = RetCode.UNDEFINED_BEHAVIOUR))) := by
  by_cases hu : USER_PAGE_OFFSET ≤ offset ∧ offset < USER_PAGE_OFFSET + WORDS_PER_PAGE * 4
  · obtain ⟨u, r, e, _⟩ := programUserPage_returns env pf hp s (offset - USER_PAGE_OFFSET)
      dataBuffer dataSize
    have hb : mDeviceSize ≤ offset ∨ mDeviceSize < (offset + dataSize) % 4294967296 := by
      left
      have := hu.1
      simp only [USER_PAGE_OFFSET, mDeviceSize] at this ⊢
      omega
    refine ⟨u, RetCode.ERROR_FAIL, ?_, Or.inl ⟨hb, rfl⟩⟩
    rw [programSequence_userPage env pf s offset dataBuffer dataSize hu, e]
    rfl
  · rw [programSequence_main env pf s offset dataBuffer dataSize hu]
    by_cases hb : mDeviceSize ≤ offset ∨ mDeviceSize < (offset + dataSize) % 4294967296
    · exact ⟨s, _, by rw [if_pos hb], Or.inl ⟨hb, rfl⟩⟩
    · rw [if_neg hb]
      have hb2 := hb
      simp only [mDeviceSize, not_or, not_le, not_lt] at hb2
      rw [and_pageMask offset (by omega)]
      obtain ⟨s1, r, e, _, hr⟩ := programLoop_returns env pf dataBuffer dataSize hp dataSize s
        offset (offset / 512 * 512) dataSize (le_refl _) (by omega) (by omega)
      exact ⟨s1, r, e, Or.inr ⟨hb, hr⟩⟩


/-- C13 (counterexample): on a device whose status register always shows the lock
error, every poll fails with ERROR_JTAG_DEVICE_ERROR, yet clearPageBuffer and
eraseSequence return ERROR_OK. -/
theorem clearPageBuffer_ignores_lock_error :
    (∀ s : State, (waitFlashReady (steadyEnv 4 0) 1 s).map Prod.snd =
      some RetCode.ERROR_JTAG_DEVICE_ERROR) ∧
    (clearPageBuffer (steadyEnv 4 0) 1 State.init).map Prod.snd = some RetCode.ERROR_OK ∧
    (eraseSequence (steadyEnv 4 0) 1 State.init).map Prod.snd = some RetCode.ERROR_OK := by
  refine ⟨?_, by decide, by decide⟩
  intro s
  have h4 : ((steadyEnv 4 0).reg FSR s.regReads).testBit 2 = true := by
    show (4 : Nat).testBit 2 = true
    decide
  have hc : (steadyEnv 4 0).clock s.ticks - (steadyEnv 4 0).clock (s.ticks + 1) < 1000 := by
    have := steadyEnv_monotonic 4 0 (le_refl _) s.ticks
    omega
  rw [(waitFlashReady_decides (steadyEnv 4 0) 0 s hc).1 h4]
  rfl

/-- C13 (amended): on a device whose polls return, with whatever result, the five
operations never hand a poll's error to the caller. clearPageBuffer and
eraseSequence return ERROR_OK. unlockRegion and programUserPage return
ERROR_FAIL exactly when their own bounds check rejects the request, and
ERROR_OK otherwise. programSequence returns ERROR_FAIL when its bounds check
rejects; otherwise it returns ERROR_OK after block writes that all succeeded,
or ERROR_FAIL right after a block write that the device refused, or its run
reaches an access outside the local page array, where no result is defined. -/
theorem operations_discard_poll_results (env : Env) (pf : Nat) (hp : PollsReturn env pf)
    (s : State) (offset : Nat) (dataBuffer : Nat → Nat) (size : Nat) :
    (∃ s1, clearPageBuffer env pf s = some (s1, RetCode.ERROR_OK)) ∧
    (∃ s1, eraseSequence env pf s = some (s1, RetCode.ERROR_OK)) ∧
    (∃ s1 r, unlockRegion env pf s offset size = some (s1, r) ∧
      r = (if USER_PAGE_OFFSET ≤ offset ∧ offset < USER_PAGE_OFFSET + WORDS_PER_PAGE * 4 then
          RetCode.ERROR_OK
        else if mDeviceSize ≤ offset ∨ mDeviceSize < (offset + size) % 4294967296 then
          RetCode.ERROR_FAIL
        else RetCode.ERROR_OK)) ∧
    (∃ s1 r, programUserPage env pf s offset dataBuffer size = some (s1, r) ∧
      r = (if WORDS_PER_PAGE * 4 ≤ offset ∨ WORDS_PER_PAGE * 4 < (offset + size) % 4294967296 then
          RetCode.ERROR_FAIL
        else RetCode.ERROR_OK)) ∧
    (∃ s1 r, programSequence env pf s offset dataBuffer size = some (s1, r) ∧
      (((mDeviceSize ≤ offset ∨ mDeviceSize < (offset + size) % 4294967296) ∧
          r = RetCode.ERROR_FAIL) ∨
        (¬ (mDeviceSize ≤ offset ∨ mDeviceSize < (offset + size) % 4294967296) ∧
          ((r = RetCode.ERROR_OK ∧
              ∀ k, s.writes32 ≤ k → k < s1.writes32 → env.writeOk k = true) ∨
            (r = RetCode.ERROR_FAIL ∧ s.writes32 < s1.writes32 ∧
              env.writeOk (s1.writes32 - 1) = false) ∨
            r = RetCode.UNDEFINED_BEHAVIOUR)))) := by
  obtain ⟨c, hc, _⟩ := clearPageBuffer_exec env pf hp s
  obtain ⟨e, he, _⟩ := eraseSequence_exec env pf hp s
  exact ⟨⟨c, hc⟩, ⟨e, he⟩, unlockRegion_exec env pf hp s offset size,
    programUserPage_returns env pf hp s offset dataBuffer size,
    programSequence_returns env pf hp s offset dataBuffer size⟩


/-- Witness for C13 (amended): the device whose every poll fails with the lock
error; offset 0 and size 512, a request that all three bounds checks accept. -/
theorem operations_discard_poll_results_witness :
    PollsReturn (steadyEnv 4 0) 1 ∧
    (∃ s1, clearPageBuffer (steadyEnv 4 0) 1 State.init = some (s1, RetCode.ERROR_OK)) ∧
    (∃ s1, eraseSequence (steadyEnv 4 0) 1 State.init = some (s1, RetCode.ERROR_OK)) ∧
    (∃ s1 r, unlockRegion (steadyEnv 4 0) 1 State.init 0 512 = some (s1, r) ∧
      r = (if USER_PAGE_OFFSET ≤ 0 ∧ 0 < USER_PAGE_OFFSET + WORDS_PER_PAGE * 4 then
          RetCode.ERROR_OK
        else if mDeviceSize ≤ 0 ∨ mDeviceSize < (0 + 512) % 4294967296 then
          RetCode.ERROR_FAIL
        else RetCode.ERROR_OK)) ∧
    (∃ s1 r, programUserPage (steadyEnv 4 0) 1 State.init 0 (fun _ => 0) 512 = some (s1, r) ∧
      r = (if WORDS_PER_PAGE * 4 ≤ 0 ∨ WORDS_PER_PAGE * 4 < (0 + 512) % 4294967296 then
          RetCode.ERROR_FAIL
        else RetCode.ERROR_OK)) ∧
    (∃ s1 r, programSequence (steadyEnv 4 0) 1 State.init 0 (fun _ => 0) 512 = some (s1, r) ∧
      (((mDeviceSize ≤ 0 ∨ mDeviceSize < (0 + 512) % 4294967296) ∧
          r = RetCode.ERROR_FAIL) ∨
        (¬ (mDeviceSize ≤ 0 ∨ mDeviceSize < (0 + 512) % 4294967296) ∧
          ((r = RetCode.ERROR_OK ∧
              ∀ k, State.init.writes32 ≤ k → k < s1.writes32 →
                (steadyEnv 4 0).writeOk k = true) ∨
            (r = RetCode.ERROR_FAIL ∧ State.init.writes32 < s1.writes32 ∧
              (steadyEnv 4 0).writeOk (s1.writes32 - 1) = false) ∨
            r = RetCode.UNDEFINED_BEHAVIOUR)))) ∧
    (programSequence (steadyEnv 4 0) 1 State.init 0 (fun _ => 0) 512).map Prod.snd =
      some RetCode.ERROR_OK :=
  have hp : PollsReturn (steadyEnv 4 0) 1 :=
    pollsReturn_of_decided (steadyEnv 4 0) (steadyEnv_monotonic 4 0 (le_refl _))
      (fun _ => Or.inl (by show (4 : Nat).testBit 2 = true; decide)) 0
  have h := operations_discard_poll_results (steadyEnv 4 0) 1 hp State.init 0 (fun _ => 0) 512
  ⟨hp, h.1, h.2.1, h.2.2.1, h.2.2.2.1, h.2.2.2.2, by decide⟩


/-! ## Claims on failed block writes, the user page and the preserve-read -/

theorem failingWriteEnv_pollsReturn (bad : Nat) : PollsReturn (failingWriteEnv bad) 1 :=
  pollsReturn_of_decided (failingWriteEnv bad) (fun _ => le_refl _)
    (fun _ => Or.inr (Or.inr (by show (1 : Nat).testBit 0 = true; decide))) 0

/-- C14 (evaluation at the failing input): 1000 bytes at offset 0 on a device that
refuses the second block write (k = 2). The first pass writes and commits page 0.
The second pass is partial (488 bytes), so before its block write it reads
dataSize = 1000 words into the 128-word array bufferPacket. The run is undefined
from that read on: the failing block write lies behind it, and neither the
return of ERROR_FAIL nor the number of WRITE_PAGE commands is defined. -/
theorem programSequence_overrun_before_failed_write :
    0 + 1000 ≤ mDeviceSize ∧
    (programSequence (failingWriteEnv 1) 1 State.init 0 (fun i => i) 1000).map
        (fun r => (r.2, blockReadsOf r.1.trace, (blockWritesOf r.1.trace).length)) =
      some (RetCode.UNDEFINED_BEHAVIOUR, [(mBaseAddress + 512, 1000)], 1) ∧
    (programSequence (failingWriteEnv 1) 1 State.init 0 (fun i => i) 1000).map
        (fun r => writePageCommands r.1.trace) = some [0xA5000001] ∧
    ¬ (1000 ≤ WORDS_PER_PAGE) := by
  decide


/-- C15 (evaluation at the failing input): offset 4 and length 0xFFFFFFFC are 32-bit
values with offset + length above 512, but the sum computed in `uint32_t` wraps
to 0; programUserPage passes its bounds check, reads the user page, clears the
page buffer, block-writes the page, issues WRITE_USER_PAGE and returns ERROR_OK. -/
theorem programUserPage_wrapped_sum_accepted :
    512 < 4 + 4294967292 ∧
    (programUserPage (readyEnv (fun _ => 0)) 1 State.init 4 (fun _ => 0) 4294967292).map
        (fun r => (r.2, commandWords r.1.trace, blockReadsOf r.1.trace)) =
      some (RetCode.ERROR_OK, [0xA5000003, 0xA500000D], [(0x80800000, 512)]) ∧
    (programUserPage (readyEnv (fun _ => 0)) 1 State.init 4 (fun _ => 0) 4294967292).map
        (fun r => (blockWritesOf r.1.trace).map (fun w => (w.1, w.2.1))) =
      some [(0x80800000, 512)] := by
  decide


theorem blockReadsOf_append (t u : List Event) :
    blockReadsOf (t ++ u) = blockReadsOf t ++ blockReadsOf u := by
  simp [blockReadsOf]

theorem blockReadsOf_userPageEvents (env : Env) (offset : Nat) (dataBuffer : Nat → Nat)
    (dataSize : Nat) :
    blockReadsOf (userPageEvents env offset dataBuffer dataSize) =
      if userPageIsPartial offset dataSize then [(userPageAddress, WORDS_PER_PAGE * 4)] else [] := by
  unfold userPageEvents
  split <;> rfl

theorem blockWritesOf_userPageEvents (env : Env) (offset : Nat) (dataBuffer : Nat → Nat)
    (dataSize : Nat) :
    blockWritesOf (userPageEvents env offset dataBuffer dataSize) =
      [(userPageAddress, WORDS_PER_PAGE * 4, userPacket env offset dataBuffer dataSize)] := by
  have ht : (userPacket env offset dataBuffer dataSize).take (WORDS_PER_PAGE * 4) =
      userPacket env offset dataBuffer dataSize :=
    List.take_of_length_le (by rw [userPacket_length]; exact Nat.le_refl 512)
  unfold userPageEvents
  rw [ht]
  split <;> rfl

/-- C16: for every offset < 512 and length with offset + length ≤ 512 that is not a
full-page write, on a device whose polls return, programUserPage reads the 512
bytes of the user page, and the 512-byte buffer it then block-writes to the
user-page address holds, at every index j outside [offset, offset + length),
the byte read from address userPageAddress + j. -/
theorem programUserPage_preserves_outside (env : Env) (pf : Nat) (s : State) (offset : Nat)
    (dataBuffer : Nat → Nat) (dataSize : Nat) (hp : PollsReturn env pf)
    (h1 : offset < 512) (h2 : offset + dataSize ≤ 512) (h3 : 0 < offset ∨ dataSize < 512) :
    ∃ (s1 : State) (buf : List Nat),
      programUserPage env pf s offset dataBuffer dataSize = some (s1, RetCode.ERROR_OK) ∧
      blockReadsOf s1.trace = blockReadsOf s.trace ++ [(userPageAddress, 512)] ∧
      blockWritesOf s1.trace = blockWritesOf s.trace ++ [(userPageAddress, 512, buf)] ∧
      buf.length = 512 ∧
      ∀ j, j < 512 → (j < offset ∨ offset + dataSize ≤ j) →
        buf[j]? = some (env.mem8 ((userPageAddress + j) % 4294967296)) := by
  have hc : userPageIsPartial offset dataSize := h3
  obtain ⟨s1, e, t, _⟩ := programUserPage_exec env pf hp s offset dataBuffer dataSize h1
    (by omega)
  refine ⟨s1, userPacket env offset dataBuffer dataSize, e, ?_, ?_,
    userPacket_length env offset dataBuffer dataSize, ?_⟩
  · rw [← blockReadsOf_strip s1.trace, t, blockReadsOf_append, blockReadsOf_strip,
      blockReadsOf_userPageEvents, if_pos hc]
    rfl
  · rw [← blockWritesOf_strip s1.trace, t, blockWritesOf_append, blockWritesOf_strip,
      blockWritesOf_userPageEvents]
    rfl
  · intro j hj ho
    exact userPacket_outside env offset dataBuffer dataSize hc (by omega) j hj ho

/-- Witness for C16: 8 bytes written at offset 16 of the user page. -/
theorem programUserPage_preserves_outside_witness :
    ∃ (s1 : State) (buf : List Nat),
      programUserPage (readyEnv (fun _ => 0)) 1 State.init 16 (fun i => i) 8 =
        some (s1, RetCode.ERROR_OK) ∧
      blockReadsOf s1.trace = blockReadsOf State.init.trace ++ [(userPageAddress, 512)] ∧
      blockWritesOf s1.trace = blockWritesOf State.init.trace ++ [(userPageAddress, 512, buf)] ∧
      buf.length = 512 ∧
      ∀ j, j < 512 → (j < 16 ∨ 16 + 8 ≤ j) →
        buf[j]? = some ((readyEnv (fun _ => 0)).mem8 ((userPageAddress + j) % 4294967296)) :=
  programUserPage_preserves_outside (readyEnv (fun _ => 0)) 1 State.init 16 (fun i => i) 8
    (readyEnv_pollsReturn _) (by decide) (by decide) (by decide)

/-- The packet of a full-page user-page write: every byte is stored by the fill loop. -/
theorem userPacket_full (env : Env) (dataBuffer : Nat → Nat) :
    userPacket env 0 dataBuffer 512 = (List.range 512).map (fun j => dataBuffer j % 256) := by
  apply List.ext_getElem?
  intro j
  by_cases hj : j < 512
  · have := userPacket_inside env 0 dataBuffer 512 (by decide) j hj (by decide)
    rw [Nat.zero_add] at this
    rw [this, List.getElem?_map, List.getElem?_range hj]
    rfl
  · rw [List.getElem?_eq_none (by rw [userPacket_length]; omega),
      List.getElem?_eq_none (by simp; omega)]

/-- For every in-bounds (offset, length), on a device whose polls return,
programUserPage issues the 512-byte block read of the user page if and only if
offset > 0 or length < 512; with offset = 0 and length = 512 no read is issued
and byte j of the written buffer is the low byte of the word dataBuffer[j], for
every j below 512. -/
theorem programUserPage_reads (env : Env) (pf : Nat) (s : State) (offset : Nat)
    (dataBuffer : Nat → Nat) (dataSize : Nat) (hp : PollsReturn env pf)
    (h1 : offset < 512) (h2 : offset + dataSize ≤ 512) :
    ∃ s1 : State,
      programUserPage env pf s offset dataBuffer dataSize = some (s1, RetCode.ERROR_OK) ∧
      (blockReadsOf s1.trace =
        blockReadsOf s.trace ++ (if 0 < offset ∨ dataSize < 512 then [(userPageAddress, 512)]
          else [])) ∧
      (offset = 0 → dataSize = 512 →
        blockReadsOf s1.trace = blockReadsOf s.trace ∧
        blockWritesOf s1.trace = blockWritesOf s.trace ++
          [(userPageAddress, 512, (List.range 512).map (fun j => dataBuffer j % 256))]) := by
  obtain ⟨s1, e, t, _⟩ := programUserPage_exec env pf hp s offset dataBuffer dataSize h1
    (by omega)
  have hr : blockReadsOf s1.trace =
      blockReadsOf s.trace ++ (if 0 < offset ∨ dataSize < 512 then [(userPageAddress, 512)]
        else []) := by
    rw [← blockReadsOf_strip s1.trace, t, blockReadsOf_append, blockReadsOf_strip,
      blockReadsOf_userPageEvents]
    rfl
  refine ⟨s1, e, hr, ?_⟩
  intro ho hd
  subst ho
  subst hd
  refine ⟨?_, ?_⟩
  · rw [hr, if_neg (by omega), List.append_nil]
  · rw [← blockWritesOf_strip s1.trace, t, blockWritesOf_append, blockWritesOf_strip,
      blockWritesOf_userPageEvents, userPacket_full]
    rfl

/-- C17 (evaluation at the failing input): a full user page, offset 0 and length
512, whose payload is the 128 words 0x44332211. No read is issued, but the
written buffer does not consist of the payload: byte i is the low byte of word i
of dataBuffer, so bytes 0..127 are 0x11 and bytes 128..511 come from the 384
words that follow the 512-byte payload in memory (0 here), where the payload
bytes are 11 22 33 44 repeated 128 times. -/
theorem programUserPage_full_page_not_payload :
    (∃ s1 : State,
      programUserPage (readyEnv (fun _ => 0)) 1 State.init 0 fullPagePayload 512 =
        some (s1, RetCode.ERROR_OK) ∧
      blockReadsOf s1.trace = [] ∧
      blockWritesOf s1.trace =
        [(userPageAddress, 512, List.replicate 128 0x11 ++ List.replicate 384 0)]) ∧
    ((List.range 512).map (wordBytesLE fullPagePayload)).take 8 =
      [0x11, 0x22, 0x33, 0x44, 0x11, 0x22, 0x33, 0x44] ∧
    (List.range 512).map (wordBytesLE fullPagePayload) ≠
      List.replicate 128 0x11 ++ List.replicate 384 0 := by
  refine ⟨?_, by decide, by decide⟩
  obtain ⟨s1, e, _, h⟩ := programUserPage_reads (readyEnv (fun _ => 0)) 1 State.init 0
    fullPagePayload 512 (readyEnv_pollsReturn _) (by decide) (by decide)
  obtain ⟨h1, h2⟩ := h rfl rfl
  refine ⟨s1, e, h1, ?_⟩
  rw [h2]
  have : (List.range 512).map (fun j => fullPagePayload j % 256) =
      List.replicate 128 0x11 ++ List.replicate 384 0 := by decide
  rw [this]
  rfl


theorem commandWords_userPageEvents (env : Env) (offset : Nat) (dataBuffer : Nat → Nat)
    (dataSize : Nat) :
    commandWords (userPageEvents env offset dataBuffer dataSize) =
      [WRITE_PROTECT_KEY ||| CMD_CLEAR_PAGE_BUFFER, WRITE_PROTECT_KEY ||| CMD_WRITE_USER_PAGE] := by
  unfold userPageEvents
  split <;> rfl

/-- C18 (evaluation at the failing input): 8 payload bytes (the words 0x11111111,
0x22222222) written at offset 0 of the user page. The payload bytes are
11 11 11 11 22 22 22 22 in either byte order, but the fill loop stores the low
byte of WORD i at byte i: the buffer written starts 11 22 00 00 00 00 00 00. -/
theorem programUserPage_stores_low_bytes_of_words :
    (programUserPage (readyEnv (fun _ => 0)) 1 State.init 0 twoWordPayload 8).map
        (fun r => (r.2, (blockWritesOf r.1.trace).map (fun w => w.2.2.take 8))) =
      some (RetCode.ERROR_OK, [[0x11, 0x22, 0, 0, 0, 0, 0, 0]]) ∧
    (List.range 8).map (wordBytesLE twoWordPayload) =
      [0x11, 0x11, 0x11, 0x11, 0x22, 0x22, 0x22, 0x22] ∧
    (List.range 8).map (wordBytesBE twoWordPayload) =
      [0x11, 0x11, 0x11, 0x11, 0x22, 0x22, 0x22, 0x22] := by
  decide

/-- C19: for every offset in the user-page window and every length, on a device
whose polls return, programSequence runs programUserPage(offset - 0x00800000,
data, length) and then returns ERROR_FAIL from the main-array bounds check, in
the state programUserPage left; when the user-page request is in bounds,
programUserPage itself returned ERROR_OK and issued WRITE_USER_PAGE. -/
theorem programSequence_user_page_then_fail (env : Env) (pf : Nat) (s : State) (offset : Nat)
    (dataBuffer : Nat → Nat) (dataSize : Nat) (hp : PollsReturn env pf)
    (h1 : USER_PAGE_OFFSET ≤ offset) (h2 : offset < USER_PAGE_OFFSET + 512) :
    ∃ (s1 : State) (r : RetCode),
      programUserPage env pf s (offset - USER_PAGE_OFFSET) dataBuffer dataSize = some (s1, r) ∧
      programSequence env pf s offset dataBuffer dataSize = some (s1, RetCode.ERROR_FAIL) ∧
      (offset - USER_PAGE_OFFSET + dataSize ≤ 512 →
        r = RetCode.ERROR_OK ∧
        commandWords s1.trace = commandWords s.trace ++
          [WRITE_PROTECT_KEY ||| CMD_CLEAR_PAGE_BUFFER,
           WRITE_PROTECT_KEY ||| CMD_WRITE_USER_PAGE]) := by
  have hu : USER_PAGE_OFFSET ≤ offset ∧ offset < USER_PAGE_OFFSET + WORDS_PER_PAGE * 4 :=
    ⟨h1, h2⟩
  have hseq := programSequence_userPage env pf s offset dataBuffer dataSize hu
  by_cases hin : offset - USER_PAGE_OFFSET + dataSize ≤ 512
  · obtain ⟨s1, e, t, _⟩ := programUserPage_exec env pf hp s (offset - USER_PAGE_OFFSET)
      dataBuffer dataSize (by omega) (by omega)
    refine ⟨s1, RetCode.ERROR_OK, e, ?_, ?_⟩
    · rw [hseq, e]; rfl
    · intro _
      refine ⟨rfl, ?_⟩
      rw [← commandWords_strip s1.trace, t, commandWords_append, commandWords_strip,
        commandWords_userPageEvents]
  · obtain ⟨s1, r, e, _⟩ := programUserPage_returns env pf hp s (offset - USER_PAGE_OFFSET)
      dataBuffer dataSize
    refine ⟨s1, r, e, ?_, ?_⟩
    · rw [hseq, e]; rfl
    · intro h; exact absurd h hin

/-- Witness for C19: 4 bytes at offset 0x00800000 on an always-ready device. -/
theorem programSequence_user_page_then_fail_witness :
    ∃ (s1 : State) (r : RetCode),
      programUserPage (readyEnv (fun _ => 0)) 1 State.init (0x00800000 - USER_PAGE_OFFSET)
        (fun _ => 0) 4 = some (s1, r) ∧
      programSequence (readyEnv (fun _ => 0)) 1 State.init 0x00800000 (fun _ => 0) 4 =
        some (s1, RetCode.ERROR_FAIL) ∧
      (0x00800000 - USER_PAGE_OFFSET + 4 ≤ 512 →
        r = RetCode.ERROR_OK ∧
        commandWords s1.trace = commandWords State.init.trace ++
          [WRITE_PROTECT_KEY ||| CMD_CLEAR_PAGE_BUFFER,
           WRITE_PROTECT_KEY ||| CMD_WRITE_USER_PAGE]) :=
  programSequence_user_page_then_fail (readyEnv (fun _ => 0)) 1 State.init 0x00800000
    (fun _ => 0) 4 (readyEnv_pollsReturn _) (by decide) (by decide)

/-- C20 (evaluation at the failing input): short writes at offset 0 of 8 and of 12
bytes. The preserve-read starts at the page, base + 0, but asks for dataSize
words, 8 and 12, not for the 128 words of a page: the count follows the total
length of the request. -/
theorem programSequence_preserve_read_count :
    (programSequence (readyEnv (fun _ => 0)) 1 State.init 0 (fun _ => 0) 8).map
        (fun r => (r.2, blockReadsOf r.1.trace)) =
      some (RetCode.ERROR_OK, [(mBaseAddress, 8)]) ∧
    (programSequence (readyEnv (fun _ => 0)) 1 State.init 0 (fun _ => 0) 12).map
        (fun r => (r.2, blockReadsOf r.1.trace)) =
      some (RetCode.ERROR_OK, [(mBaseAddress, 12)]) ∧
    (8 : Nat) ≠ WORDS_PER_PAGE ∧ (12 : Nat) ≠ WORDS_PER_PAGE := by
  decide


/-! ## The unlock loop: its commands -/

theorem commandWords_unlockEvents (last : Nat) :
    ∀ (fuel page pagenr : Nat),
      commandWords (unlockEvents last fuel page pagenr) =
        (unlockPagenrs last fuel page pagenr).map unlockCommand := by
  intro fuel
  induction fuel with
  | zero => intro page pagenr; rfl
  | succ n ih =>
    intro page pagenr
    by_cases h : pagenr ≤ last
    · simp only [unlockEvents, unlockPagenrs, h, if_true, List.map_cons]
      rw [← ih]
      rfl
    · simp only [unlockEvents, unlockPagenrs, h, if_false]
      rfl

/-- The passes of the unlock loop started inside a page: their number, and the
values of pagenr, which grow strictly and stay between the first one and
lastpagetounlock. -/
theorem unlockPagenrs_spec (last : Nat) (hl : last ≤ 16384) :
    ∀ (fuel page pagenr : Nat),
      last + 1 - pagenr ≤ fuel → page % 512 = 0 → page / 32 ≤ pagenr → pagenr < page / 32 + 16 →
      (unlockPagenrs last fuel page pagenr).length =
        (if pagenr ≤ last then (last - page / 32) / 16 + 1 else 0) ∧
      (∀ x ∈ unlockPagenrs last fuel page pagenr, pagenr ≤ x ∧ x ≤ last) ∧
      List.Pairwise (fun a b => a < b) (unlockPagenrs last fuel page pagenr) := by
  intro fuel
  induction fuel with
  | zero =>
    intro page pagenr hf _ _ _
    have h : ¬ pagenr ≤ last := by omega
    simp [unlockPagenrs, h]
  | succ n ih =>
    intro page pagenr hf h1 h2 h3
    by_cases h : pagenr ≤ last
    · have hP : (page + WORDS_PER_PAGE * 4) % 4294967296 = page + 512 := by
        simp only [WORDS_PER_PAGE]; omega
      have hN : (page + 512) / WORDS_PER_PAGE * 4 % 4294967296 = page / 32 + 16 := by
        simp only [WORDS_PER_PAGE]; omega
      obtain ⟨l1, m1, p1⟩ := ih (page + 512) (page / 32 + 16)
        (by omega) (by omega) (by omega) (by omega)
      simp only [unlockPagenrs, h, if_true, hP, hN, List.length_cons, List.mem_cons,
        List.pairwise_cons]
      refine ⟨?_, ?_, ?_, p1⟩
      · rw [l1]
        split <;> omega
      · intro x hx
        rcases hx with hx | hx
        · subst hx; exact ⟨le_refl _, h⟩
        · have := m1 x hx
          omega
      · intro x hx
        have := m1 x hx
        omega
    · simp [unlockPagenrs, h]


/-! ## The fields of the command words -/

theorem and_keyMask_of_lt (x : Nat) (h : x < 16777216) : x &&& FCMD_KEY_MASK = 0 := by
  have e : (FCMD_KEY_MASK : Nat) = (2 ^ 32 - 1) ^^^ (2 ^ 24 - 1) := by decide
  rw [e, Nat.and_xor_distrib_left, Nat.and_pow_two_sub_one_eq_mod,
    Nat.and_pow_two_sub_one_eq_mod]
  have h1 : x % 2 ^ 32 = x := Nat.mod_eq_of_lt (by omega)
  have h2 : x % 2 ^ 24 = x := Nat.mod_eq_of_lt (by omega)
  rw [h1, h2, Nat.xor_self]

theorem and_pagenMask_shl (p : Nat) (h : p < 65536) :
    (p * 256) &&& FCMD_PAGEN_MASK = p * 256 := by
  have e : (FCMD_PAGEN_MASK : Nat) = (2 ^ 24 - 1) ^^^ (2 ^ 8 - 1) := by decide
  rw [e, Nat.and_xor_distrib_left, Nat.and_pow_two_sub_one_eq_mod,
    Nat.and_pow_two_sub_one_eq_mod]
  have h1 : p * 256 % 2 ^ 24 = p * 256 := Nat.mod_eq_of_lt (by omega)
  have h2 : p * 256 % 2 ^ 8 = 0 := by omega
  rw [h1, h2, Nat.xor_zero]

theorem opcodeField_unlockCommand (p : Nat) : opcodeField (unlockCommand p) = CMD_UNLOCK_REGION := by
  unfold opcodeField unlockCommand
  rw [Nat.and_distrib_right, Nat.and_assoc]
  have h1 : (FCMD_PAGEN_MASK : Nat) &&& FCMD_FCMD_MASK = 0 := by decide
  have h2 : (WRITE_PROTECT_KEY ||| CMD_UNLOCK_REGION) &&& FCMD_FCMD_MASK = CMD_UNLOCK_REGION := by
    decide
  rw [h1, h2, Nat.and_zero, Nat.or_zero]

theorem keyField_unlockCommand (p : Nat) : keyField (unlockCommand p) = 0xA5 := by
  unfold keyField unlockCommand
  rw [Nat.and_distrib_right, Nat.and_assoc]
  have h1 : (FCMD_PAGEN_MASK : Nat) &&& FCMD_KEY_MASK = 0 := by decide
  have h2 : (WRITE_PROTECT_KEY ||| CMD_UNLOCK_REGION) &&& FCMD_KEY_MASK = WRITE_PROTECT_KEY := by
    decide
  rw [h1, h2, Nat.and_zero, Nat.or_zero]
  decide

theorem pageField_unlockCommand (p : Nat) (h : p < 65536) : pageField (unlockCommand p) = p := by
  unfold pageField unlockCommand
  have hx : (p <<< FCMD_PAGEN_OFFSET) % 4294967296 = p * 256 := by
    rw [Nat.shiftLeft_eq]
    simp only [FCMD_PAGEN_OFFSET]
    omega
  have h1 : (WRITE_PROTECT_KEY ||| CMD_UNLOCK_REGION) &&& FCMD_PAGEN_MASK = 0 := by decide
  rw [hx, Nat.and_distrib_right, h1, Nat.zero_or, Nat.and_assoc, Nat.and_self,
    and_pagenMask_shl p h, Nat.shiftRight_eq_div_pow]
  simp only [FCMD_PAGEN_OFFSET]
  omega

theorem writePageCommand_fields (offset : Nat) (h : offset < 524288) :
    keyField (writePageCommand offset) = 0xA5 ∧
    opcodeField (writePageCommand offset) = CMD_WRITE_PAGE := by
  have hw := isWritePage_writePageCommand offset
  unfold isWritePage at hw
  refine ⟨?_, by simpa [opcodeField] using hw⟩
  unfold keyField writePageCommand
  have hx : ((offset / WORDS_PER_PAGE * 4 % 4294967296) <<< FCMD_PAGEN_OFFSET) % 4294967296
      < 16777216 := by
    rw [Nat.shiftLeft_eq]
    simp only [FCMD_PAGEN_OFFSET, WORDS_PER_PAGE]
    omega
  have h2 : (WRITE_PROTECT_KEY ||| CMD_WRITE_PAGE) &&& FCMD_KEY_MASK = WRITE_PROTECT_KEY := by
    decide
  rw [Nat.and_distrib_right, and_keyMask_of_lt _ hx, h2, Nat.or_zero]
  decide


/-- An in-range unlockRegion on a device whose polls return: ERROR_OK, and the
commands written are unlockCommand of the successive values of pagenr. -/
theorem unlockRegion_inRange (env : Env) (pf : Nat) (hp : PollsReturn env pf) (s : State)
    (offset size : Nat) (ho : offset < 524288) (hr : offset + size ≤ 524288) :
    ∃ s1 : State, unlockRegion env pf s offset size = some (s1, RetCode.ERROR_OK) ∧
      commandWords s1.trace = commandWords s.trace ++
        (unlockPagenrs ((offset + size) / 128 * 4) ((offset + size) / 128 * 4 + 1 - offset / 128 * 4)
          (offset / 512 * 512) (offset / 128 * 4)).map unlockCommand := by
  have hu : ¬ (USER_PAGE_OFFSET ≤ offset ∧ offset < USER_PAGE_OFFSET + WORDS_PER_PAGE * 4) := by
    simp only [USER_PAGE_OFFSET]; omega
  have hb : ¬ (mDeviceSize ≤ offset ∨ mDeviceSize < (offset + size) % 4294967296) := by
    simp only [mDeviceSize]; omega
  have hm := and_pageMask offset (by omega)
  have e1 : (offset + size) % 4294967296 / WORDS_PER_PAGE * 4 % 4294967296 =
      (offset + size) / 128 * 4 := by
    simp only [WORDS_PER_PAGE]; omega
  have e2 : offset / WORDS_PER_PAGE * 4 % 4294967296 = offset / 128 * 4 := by
    simp only [WORDS_PER_PAGE]; omega
  obtain ⟨s1, x1, t1, _⟩ := unlockLoop_exec env pf hp ((offset + size) / 128 * 4) (by omega)
    ((offset + size) / 128 * 4 + 1 - offset / 128 * 4) s (offset / 512 * 512) (offset / 128 * 4)
    (le_refl _) (by omega) (by omega) (by omega)
  refine ⟨s1, ?_, ?_⟩
  · unfold unlockRegion
    rw [if_neg hu, if_neg hb]
    simp only [e1, e2, hm]
    exact x1
  · rw [← commandWords_strip s1.trace, t1, commandWords_append, commandWords_strip,
      commandWords_unlockEvents]

/-- C24: for every offset below the device size and size with offset + size at most
the device size, on a device whose polls return, unlockRegion returns ERROR_OK
after writing exactly (offset+size)/512 - offset/512 + 1 command words, one per
pass of its loop, each with opcode UNLOCK_REGION, whose page-number fields are
strictly increasing. -/
theorem unlockRegion_command_count (env : Env) (pf : Nat) (s : State) (offset size : Nat)
    (hp : PollsReturn env pf) (ho : offset < mDeviceSize) (hr : offset + size ≤ mDeviceSize) :
    ∃ (s1 : State) (cs : List Nat),
      unlockRegion env pf s offset size = some (s1, RetCode.ERROR_OK) ∧
      commandWords s1.trace = commandWords s.trace ++ cs ∧
      cs.length = (offset + size) / 512 - offset / 512 + 1 ∧
      (∀ c ∈ cs, opcodeField c = CMD_UNLOCK_REGION) ∧
      List.Pairwise (fun a b => a < b) (cs.map pageField) := by
  have ho2 : offset < 524288 := ho
  have hr2 : offset + size ≤ 524288 := hr
  obtain ⟨s1, e, t⟩ := unlockRegion_inRange env pf hp s offset size ho2 hr2
  obtain ⟨l1, m1, p1⟩ := unlockPagenrs_spec ((offset + size) / 128 * 4) (by omega)
    ((offset + size) / 128 * 4 + 1 - offset / 128 * 4) (offset / 512 * 512) (offset / 128 * 4)
    (le_refl _) (by omega) (by omega) (by omega)
  refine ⟨s1, _, e, t, ?_, ?_, ?_⟩
  · rw [List.length_map, l1, if_pos (by omega)]
    omega
  · intro c hc
    rw [List.mem_map] at hc
    obtain ⟨p, _, rfl⟩ := hc
    exact opcodeField_unlockCommand p
  · rw [List.map_map]
    have hmap : List.map (pageField ∘ unlockCommand)
        (unlockPagenrs ((offset + size) / 128 * 4)
          ((offset + size) / 128 * 4 + 1 - offset / 128 * 4)
          (offset / 512 * 512) (offset / 128 * 4)) =
        unlockPagenrs ((offset + size) / 128 * 4)
          ((offset + size) / 128 * 4 + 1 - offset / 128 * 4)
          (offset / 512 * 512) (offset / 128 * 4) := by
      rw [List.map_congr_left (g := id)]
      · exact List.map_id _
      · intro p hp2
        have := m1 p hp2
        exact pageField_unlockCommand p (by omega)
    rw [hmap]
    exact p1

/-- Witness for C24: unlockRegion(500, 1000) on an always-ready device. -/
theorem unlockRegion_command_count_witness :
    ∃ (s1 : State) (cs : List Nat),
      unlockRegion (readyEnv (fun _ => 0)) 1 State.init 500 1000 = some (s1, RetCode.ERROR_OK) ∧
      commandWords s1.trace = commandWords State.init.trace ++ cs ∧
      cs.length = (500 + 1000) / 512 - 500 / 512 + 1 ∧
      (∀ c ∈ cs, opcodeField c = CMD_UNLOCK_REGION) ∧
      List.Pairwise (fun a b => a < b) (cs.map pageField) :=
  unlockRegion_command_count (readyEnv (fun _ => 0)) 1 State.init 500 1000
    (readyEnv_pollsReturn _) (by decide) (by decide)

/-- C25 (evaluation at the failing input): 4 bytes written at offset 32. The store
index is bufferOffset = 32 % 128 * 4 = 128, one past the last element of the
128-word packet. -/
theorem programSequence_store_out_of_bounds :
    32 < mDeviceSize ∧ 32 + 4 ≤ mDeviceSize ∧
    (programSequence (readyEnv (fun _ => 0)) 1 State.init 32 (fun _ => 0x11111111) 4).map
        (fun r => r.1.stores) = some [128] ∧
    ¬ (128 < WORDS_PER_PAGE) := by
  decide

/-! ## The command words of the five operations -/

theorem fields_clear :
    keyField (WRITE_PROTECT_KEY ||| CMD_CLEAR_PAGE_BUFFER) = 0xA5 ∧
    opcodeField (WRITE_PROTECT_KEY ||| CMD_CLEAR_PAGE_BUFFER) = CMD_CLEAR_PAGE_BUFFER := by
  decide

/-- On a device whose polls return, the program loop started inside a page, on
bytes that end inside the device: its run ends (possibly at an access outside the
local array), and every command word it wrote carries the key and the opcode
CLEAR_PAGE_BUFFER or WRITE_PAGE. -/
theorem programLoop_commands (env : Env) (pf : Nat) (dataBuffer : Nat → Nat) (dataSize : Nat)
    (hp : PollsReturn env pf) :
    ∀ (fuel : Nat) (s : State) (offset page bytesLeft : Nat),
      bytesLeft ≤ fuel → page ≤ offset → offset < page + 512 → page % 512 = 0 →
      offset + bytesLeft ≤ 524288 →
      ∃ (s1 : State) (r : RetCode) (cs : List Nat),
        programLoop env pf dataBuffer dataSize fuel s offset page bytesLeft = some (s1, r) ∧
        (r = RetCode.ERROR_OK ∨ r = RetCode.ERROR_FAIL ∨ r = RetCode.UNDEFINED_BEHAVIOUR) ∧
        commandWords s1.trace = commandWords s.trace ++ cs ∧
        ∀ c ∈ cs, keyField c = 0xA5 ∧
          (opcodeField c = CMD_CLEAR_PAGE_BUFFER ∨ opcodeField c = CMD_WRITE_PAGE) := by
  intro fuel
  induction fuel with
  | zero =>
    intro s offset page bytesLeft hf _ _ _ _
    have : bytesLeft = 0 := by omega
    subst this
    exact ⟨s, RetCode.ERROR_OK, [], by simp [programLoop], Or.inl rfl, by simp, by simp⟩
  | succ n ih =>
    intro s offset page bytesLeft hf h1 h2 h3 h4
    by_cases hpos : 0 < bytesLeft
    · obtain ⟨k1, k2, k3⟩ := chunkSize_bounds offset page bytesLeft hpos h1 h2
      have hP : (page + WORDS_PER_PAGE * 4) % 4294967296 = page + 512 := by
        simp only [WORDS_PER_PAGE]; omega
      have hclear : ∀ c ∈ [WRITE_PROTECT_KEY ||| CMD_CLEAR_PAGE_BUFFER],
          keyField c = 0xA5 ∧
            (opcodeField c = CMD_CLEAR_PAGE_BUFFER ∨ opcodeField c = CMD_WRITE_PAGE) := by
        intro c hc
        simp only [List.mem_singleton] at hc
        subst hc; exact ⟨fields_clear.1, Or.inl fields_clear.2⟩
      obtain ⟨st, tst, hcase⟩ := programLoop_pass env pf dataBuffer dataSize hp n s offset page
        bytesLeft hpos
      rcases hcase with ⟨e, _⟩ | ⟨e, _, _⟩ | ⟨_, b, e, tb, _⟩
      · exact ⟨st, _, [WRITE_PROTECT_KEY ||| CMD_CLEAR_PAGE_BUFFER], e, Or.inr (Or.inr rfl), tst,
          hclear⟩
      · exact ⟨st, _, [WRITE_PROTECT_KEY ||| CMD_CLEAR_PAGE_BUFFER], e, Or.inr (Or.inl rfl), tst,
          hclear⟩
      · rw [hP] at e
        obtain ⟨s1, r, cs, e1, hr1, c1, f1⟩ := ih b (page + 512) (page + 512)
          (bytesLeft - chunkSize offset page bytesLeft) (by omega) (le_refl _) (by omega)
          (by omega) (by rw [k3]; omega)
        refine ⟨s1, r, (WRITE_PROTECT_KEY ||| CMD_CLEAR_PAGE_BUFFER) :: writePageCommand offset :: cs,
          by rw [e, e1], hr1, ?_, ?_⟩
        · rw [c1, tb, tst]
          simp
        · intro c hc
          simp only [List.mem_cons] at hc
          rcases hc with hc | hc | hc
          · subst hc; exact ⟨fields_clear.1, Or.inl fields_clear.2⟩
          · subst hc
            have := writePageCommand_fields offset (by omega)
            exact ⟨this.1, Or.inr this.2⟩
          · exact f1 c hc
    · have : bytesLeft = 0 := by omega
      subst this
      exact ⟨s, RetCode.ERROR_OK, [], by simp [programLoop], Or.inl rfl, by simp, by simp⟩


/-- C21 (counterexample): programUserPage writes two command words, 0xA5000003 and
0xA500000D; the first has opcode 3 (its page-buffer clear), not 13. -/
theorem programUserPage_also_clears :
    (programUserPage (readyEnv (fun _ => 0)) 1 State.init 0 (fun _ => 0) 4).map
        (fun r => (r.2, commandWords r.1.trace)) =
      some (RetCode.ERROR_OK, [0xA5000003, 0xA500000D]) ∧
    opcodeField 0xA5000003 = CMD_CLEAR_PAGE_BUFFER ∧
    opcodeField 0xA5000003 ≠ CMD_WRITE_USER_PAGE := by
  decide

/-- C21 (amended): on a device whose polls return, every word written to the command
register has bits 31..24 equal to 0xA5 and bits 4..0 equal to the opcode of the
operation: 3 for clearPageBuffer, 6 for eraseSequence, 13 for programUserPage,
5 for unlockRegion (offset + size at most the device size) and 1 for
programSequence (offset + length at most the device size), where programUserPage
and programSequence additionally write opcode 3 for their page-buffer clear. For
programSequence the words are those of its run up to the return or, on a request
that leaves the local page array, up to the first access outside it. -/
theorem command_words_key_and_opcode (env : Env) (pf : Nat) (hp : PollsReturn env pf)
    (s : State) (offset : Nat) (dataBuffer : Nat → Nat) (size : Nat) :
    (∃ s1 cs, clearPageBuffer env pf s = some (s1, RetCode.ERROR_OK) ∧
      commandWords s1.trace = commandWords s.trace ++ cs ∧
      ∀ c ∈ cs, keyField c = 0xA5 ∧ opcodeField c = CMD_CLEAR_PAGE_BUFFER) ∧
    (∃ s1 cs, eraseSequence env pf s = some (s1, RetCode.ERROR_OK) ∧
      commandWords s1.trace = commandWords s.trace ++ cs ∧
      ∀ c ∈ cs, keyField c = 0xA5 ∧ opcodeField c = CMD_ERASE_ALL) ∧
    (∃ s1 r cs, programUserPage env pf s offset dataBuffer size = some (s1, r) ∧
      commandWords s1.trace = commandWords s.trace ++ cs ∧
      ∀ c ∈ cs, keyField c = 0xA5 ∧
        (opcodeField c = CMD_CLEAR_PAGE_BUFFER ∨ opcodeField c = CMD_WRITE_USER_PAGE)) ∧
    (offset + size ≤ mDeviceSize →
      ∃ s1 r cs, unlockRegion env pf s offset size = some (s1, r) ∧
        commandWords s1.trace = commandWords s.trace ++ cs ∧
        ∀ c ∈ cs, keyField c = 0xA5 ∧ opcodeField c = CMD_UNLOCK_REGION) ∧
    (offset + size ≤ mDeviceSize →
      ∃ s1 r cs, programSequence env pf s offset dataBuffer size = some (s1, r) ∧
        (r = RetCode.ERROR_OK ∨ r = RetCode.ERROR_FAIL ∨ r = RetCode.UNDEFINED_BEHAVIOUR) ∧
        commandWords s1.trace = commandWords s.trace ++ cs ∧
        ∀ c ∈ cs, keyField c = 0xA5 ∧
          (opcodeField c = CMD_CLEAR_PAGE_BUFFER ∨ opcodeField c = CMD_WRITE_PAGE)) := by
  refine ⟨?_, ?_, ?_, ?_, ?_⟩
  · obtain ⟨s1, e, t, _⟩ := clearPageBuffer_exec env pf hp s
    refine ⟨s1, [WRITE_PROTECT_KEY ||| CMD_CLEAR_PAGE_BUFFER], e, ?_, ?_⟩
    · rw [← commandWords_strip s1.trace, t, commandWords_append, commandWords_strip]; rfl
    · intro c hc
      simp only [List.mem_singleton] at hc
      subst hc; decide
  · obtain ⟨s1, e, t, _⟩ := eraseSequence_exec env pf hp s
    refine ⟨s1, [WRITE_PROTECT_KEY ||| CMD_ERASE_ALL], e, ?_, ?_⟩
    · rw [← commandWords_strip s1.trace, t, commandWords_append, commandWords_strip]; rfl
    · intro c hc
      simp only [List.mem_singleton] at hc
      subst hc; decide
  · by_cases hb : WORDS_PER_PAGE * 4 ≤ offset ∨
        WORDS_PER_PAGE * 4 < (offset + size) % 4294967296
    · refine ⟨s, RetCode.ERROR_FAIL, [], ?_, by simp, by simp⟩
      unfold programUserPage
      rw [if_pos hb]
    · simp only [WORDS_PER_PAGE, not_or, not_le, not_lt] at hb
      obtain ⟨s1, e, t, _⟩ := programUserPage_exec env pf hp s offset dataBuffer size
        (by omega) (by omega)
      refine ⟨s1, RetCode.ERROR_OK,
        [WRITE_PROTECT_KEY ||| CMD_CLEAR_PAGE_BUFFER, WRITE_PROTECT_KEY ||| CMD_WRITE_USER_PAGE],
        e, ?_, ?_⟩
      · rw [← commandWords_strip s1.trace, t, commandWords_append, commandWords_strip,
          commandWords_userPageEvents]
      · intro c hc
        simp only [List.mem_cons, List.mem_singleton, List.not_mem_nil, or_false] at hc
        rcases hc with hc | hc
        · subst hc; decide
        · subst hc; decide
  · intro hr
    have hr2 : offset + size ≤ 524288 := hr
    by_cases ho : offset < 524288
    · obtain ⟨s1, e, t⟩ := unlockRegion_inRange env pf hp s offset size ho hr2
      refine ⟨s1, _, _, e, t, ?_⟩
      intro c hc
      rw [List.mem_map] at hc
      obtain ⟨p, _, rfl⟩ := hc
      exact ⟨keyField_unlockCommand p, opcodeField_unlockCommand p⟩
    · have hu : ¬ (USER_PAGE_OFFSET ≤ offset ∧ offset < USER_PAGE_OFFSET + WORDS_PER_PAGE * 4) := by
        simp only [USER_PAGE_OFFSET]; omega
      have hb : mDeviceSize ≤ offset ∨ mDeviceSize < (offset + size) % 4294967296 := by
        left; simp only [mDeviceSize]; omega
      refine ⟨s, RetCode.ERROR_FAIL, [], ?_, by simp, by simp⟩
      unfold unlockRegion
      rw [if_neg hu, if_pos hb]
  · intro hr
    have hr2 : offset + size ≤ 524288 := hr
    have hu : ¬ (USER_PAGE_OFFSET ≤ offset ∧ offset < USER_PAGE_OFFSET + WORDS_PER_PAGE * 4) := by
      simp only [USER_PAGE_OFFSET]; omega
    rw [programSequence_main env pf s offset dataBuffer size hu]
    by_cases hb : mDeviceSize ≤ offset ∨ mDeviceSize < (offset + size) % 4294967296
    · exact ⟨s, RetCode.ERROR_FAIL, [], by rw [if_pos hb], Or.inr (Or.inl rfl), by simp,
        by simp⟩
    · rw [if_neg hb, and_pageMask offset (by omega)]
      exact programLoop_commands env pf dataBuffer size hp size s offset (offset / 512 * 512) size
        (le_refl _) (by omega) (by omega) (by omega) hr2

/-- Witness for C21 (amended): an always-ready device, offset 0 and size 8, for which
every one of the five operations writes at least one command and programSequence
stays inside its page array and returns ERROR_OK. -/
theorem command_words_key_and_opcode_witness :
    PollsReturn (readyEnv (fun _ => 0)) 1 ∧ 0 + 8 ≤ mDeviceSize ∧
    (∃ s1 cs, clearPageBuffer (readyEnv (fun _ => 0)) 1 State.init = some (s1, RetCode.ERROR_OK) ∧
      commandWords s1.trace = commandWords State.init.trace ++ cs ∧
      ∀ c ∈ cs, keyField c = 0xA5 ∧ opcodeField c = CMD_CLEAR_PAGE_BUFFER) ∧
    (∃ s1 cs, eraseSequence (readyEnv (fun _ => 0)) 1 State.init = some (s1, RetCode.ERROR_OK) ∧
      commandWords s1.trace = commandWords State.init.trace ++ cs ∧
      ∀ c ∈ cs, keyField c = 0xA5 ∧ opcodeField c = CMD_ERASE_ALL) ∧
    (∃ s1 r cs, programUserPage (readyEnv (fun _ => 0)) 1 State.init 0 (fun i => i) 8 =
        some (s1, r) ∧
      commandWords s1.trace = commandWords State.init.trace ++ cs ∧
      ∀ c ∈ cs, keyField c = 0xA5 ∧
        (opcodeField c = CMD_CLEAR_PAGE_BUFFER ∨ opcodeField c = CMD_WRITE_USER_PAGE)) ∧
    (∃ s1 r cs, unlockRegion (readyEnv (fun _ => 0)) 1 State.init 0 8 = some (s1, r) ∧
      commandWords s1.trace = commandWords State.init.trace ++ cs ∧
      ∀ c ∈ cs, keyField c = 0xA5 ∧ opcodeField c = CMD_UNLOCK_REGION) ∧
    (∃ s1 r cs, programSequence (readyEnv (fun _ => 0)) 1 State.init 0 (fun i => i) 8 =
        some (s1, r) ∧
      (r = RetCode.ERROR_OK ∨ r = RetCode.ERROR_FAIL ∨ r = RetCode.UNDEFINED_BEHAVIOUR) ∧
      commandWords s1.trace = commandWords State.init.trace ++ cs ∧
      ∀ c ∈ cs, keyField c = 0xA5 ∧
        (opcodeField c = CMD_CLEAR_PAGE_BUFFER ∨ opcodeField c = CMD_WRITE_PAGE)) ∧
    (programSequence (readyEnv (fun _ => 0)) 1 State.init 0 (fun i => i) 8).map
        (fun x => (x.2, commandWords x.1.trace)) =
      some (RetCode.ERROR_OK, [0xA5000003, 0xA5000001]) :=
  have h := command_words_key_and_opcode (readyEnv (fun _ => 0)) 1 (readyEnv_pollsReturn _)
    State.init 0 (fun i => i) 8
  ⟨readyEnv_pollsReturn _, by decide, h.1, h.2.1, h.2.2.1, h.2.2.2.1 (by decide),
    h.2.2.2.2 (by decide), by decide⟩

/-! ## The program loop and the bounds of the page array -/

/-- C23 (evaluation at the failing input): 1000 bytes at offset 0. The first pass
takes the chunk 512 and leaves bytesLeft = 488. The second pass, being partial,
reads dataSize = 1000 words into the 128-word array bufferPacket, running over
the frame that holds the loop variables: the run is undefined from that read
on, after one WRITE_PAGE, and the loop does not come to bytesLeft = 0. -/
theorem programSequence_loop_overruns :
    0 < mDeviceSize ∧ 0 + 1000 ≤ mDeviceSize ∧
    chunkSize 0 0 1000 = 512 ∧ chunkSize 512 512 (1000 - 512) = 488 ∧
    (programSequence (readyEnv (fun _ => 0)) 1 State.init 0 (fun i => i) 1000).map
        (fun r => (r.2, blockReadsOf r.1.trace, commandWords r.1.trace)) =
      some (RetCode.UNDEFINED_BEHAVIOUR, [(mBaseAddress + 512, 1000)],
        [0xA5000003, 0xA5000001, 0xA5000003]) ∧
    ¬ (1000 ≤ WORDS_PER_PAGE) := by
  decide


/-! ## Commands and the polls around them -/

end Avr32Flash
